import Mathlib

/-!
Verification of the insurance-analytics star-schema pipeline.

This file gives a shallow embedding, in Lean 4, of the pipeline's core
operations and proves the specified properties about them:

* `04_module_C_normalizer.py` — the dimension and fact builders
  (`build_dim_time`, `build_dim_state`, `build_dim_products`,
  `build_fact_policies`, `build_fact_claims`) together with the
  product-key derivation they share.
* `05_healthcheck_normalizer.py` — the pre-load validator
  (`check_fact_policies`, `check_fact_claims`, `check_fact_expenses`,
  `check_fact_taxes`, the dimension checks and the overall run).
* `09_module_E_loader.py` — the transactional bulk loader (`run_loader`),
  its truncation and load orders, and its rollback behaviour.

Conventions of the embedding:

* A raw CSV date cell is modelled as `Option Date`: `some d` when the cell
  parses to the calendar date `d`, `none` when it is unparseable
  (`pd.to_datetime(..., errors="coerce")` yields `NaT`, and plain
  `pd.to_datetime` raises, which the embedding renders as an `Option`
  result of the enclosing builder).
* A pandas string column operation is modelled on the character list of
  the string (`.str.upper` maps `Char.toUpper`, `.str.replace(" ", "_")`
  maps the single-character substitution).
* Monetary amounts are modelled as `Int`; only their sign matters to the
  validator.
* `sys.exit(1)` / raised exceptions are modelled with `Except String`.
-/

/-! ## Generic list utilities mirroring pandas operations -/

/-- First-occurrence deduplication with an accumulator of already-seen
values; mirrors `DataFrame.drop_duplicates()` which keeps the first
occurrence and preserves row order. -/
def dropDupAux {α : Type} [DecidableEq α] : List α → List α → List α
  | _, [] => []
  | seen, x :: xs =>
      if x ∈ seen then dropDupAux seen xs else x :: dropDupAux (x :: seen) xs

/-- Mirrors `drop_duplicates()`: keep the first occurrence of each value. -/
def dropDuplicates {α : Type} [DecidableEq α] (l : List α) : List α :=
  dropDupAux [] l

/-- Mirrors `Series.duplicated().any()`: does any value occur twice? -/
def hasDuplicates {α : Type} [DecidableEq α] : List α → Bool
  | [] => false
  | x :: xs => x ∈ xs || hasDuplicates xs

/-- The Python set difference `set(a) - set(b)` as a list of the distinct values of `a` absent
from `b`; its length is the size of the Python set difference. -/
def setDiff {α : Type} [DecidableEq α] (a b : List α) : List α :=
  dropDuplicates (a.filter (fun x => x ∉ b))

/-! ## Key Derivation: the product key -/

/-- Mirrors `.str.upper()` on a pandas string column, per character. -/
def upperString (s : String) : String :=
  String.mk (s.data.map Char.toUpper)

/-- Mirrors `.str.replace(" ", "_")` on a pandas string column. -/
def spaceToUnderscore (s : String) : String :=
  String.mk (s.data.map (fun c => if c = ' ' then '_' else c))

/-- The product-key derivation
`(line_of_business + "_" + plan_name).str.upper().str.replace(" ", "_")`,
as written identically in `build_dim_products`, `build_fact_policies`
and `build_fact_claims`. -/
def deriveProductKey (line_of_business plan_name : String) : String :=
  spaceToUnderscore (upperString (line_of_business ++ "_" ++ plan_name))

/-! ## Raw entity rows -/

/-- A calendar date, as carried by a parsed `pd.Timestamp` (time-of-day is
always midnight for the date-only columns of this pipeline). -/
structure Date where
  year : Nat
  month : Nat
  day : Nat
deriving DecidableEq

/-- A raw `clients.csv` row (the columns the pipeline reads). -/
structure ClientRow where
  client_id : Nat
  registration_year : Nat
  age : Nat
  gender : String
  customer_segment : String
  state_code : String
  region_code : String
  market_tier : String
  max_policies_allowed : Nat
deriving DecidableEq

/-- A raw `policies.csv` row (the columns the pipeline reads). Date cells
are `none` when unparseable. -/
structure PolicyRow where
  policy_id : Nat
  policy_number : String
  client_id : Nat
  state_code : String
  region_code : String
  is_renewal : Bool
  line_of_business : String
  plan_name : String
  effective_date : Option Date
  expiration_date : Option Date
  status : String
  risk_score : Int
  monthly_premium : Int
  annual_premium : Int
deriving DecidableEq

/-- A raw `claims.csv` row (the columns the pipeline reads). `fraud_flag`
is `none` when the cell is missing (`fillna(False)` applies). -/
structure ClaimRow where
  claim_id : Nat
  policy_id : Nat
  claim_type : String
  claim_status : String
  fraud_flag : Option Bool
  incident_date : Option Date
  report_date : Option Date
  claim_amount_requested : Int
  claim_amount_approved : Int
  claim_amount_paid : Int
deriving DecidableEq

/-! ## Dimension rows -/

/-- A `dim_state` row: the `[state_code, region_code, market_tier]`
projection of a client row. -/
structure StateRow where
  state_code : String
  region_code : String
  market_tier : String
deriving DecidableEq

/-- A `dim_products` row. -/
structure ProductRow where
  product_key : String
  line_of_business : String
  plan_name : String
deriving DecidableEq

/-- A `dim_policies` row. -/
structure PolicyDimRow where
  policy_id : Nat
  policy_number : String
  client_id : Nat
  state_code : String
  region_code : String
  is_renewal : Bool
deriving DecidableEq

/-! ## Sorting by state code (`sort_values("state_code")`) -/

/-- Byte-wise lexicographic comparison of strings, as pandas applies to
object (string) columns when sorting. -/
def charListLe : List Char → List Char → Bool
  | [], _ => true
  | _ :: _, [] => false
  | a :: as, b :: bs =>
      if a.toNat < b.toNat then true
      else if b.toNat < a.toNat then false
      else charListLe as bs

/-- String comparison used for `sort_values("state_code")`. -/
def stringLe (a b : String) : Bool := charListLe a.data b.data

/-- Insert a row into a list sorted by state code. -/
def insertByStateCode (x : StateRow) : List StateRow → List StateRow
  | [] => [x]
  | y :: ys =>
      if stringLe x.state_code y.state_code then x :: y :: ys
      else y :: insertByStateCode x ys

/-- Mirrors `sort_values("state_code")` on a list of state rows. -/
def sortByStateCode : List StateRow → List StateRow
  | [] => []
  | x :: xs => insertByStateCode x (sortByStateCode xs)

/-! ## Dimension Builder: state and products -/

/-- Mirrors `build_dim_state`: project `[state_code, region_code, market_tier]`,
`drop_duplicates()`, `sort_values("state_code")`. -/
def build_dim_state (clients : List ClientRow) : List StateRow :=
  sortByStateCode
    (dropDuplicates
      (clients.map (fun c => StateRow.mk c.state_code c.region_code c.market_tier)))

/-- Mirrors `build_dim_products`: deduplicate `(line_of_business, plan_name)`
pairs and attach the derived product key. -/
def build_dim_products (policies : List PolicyRow) : List ProductRow :=
  (dropDuplicates (policies.map (fun p => (p.line_of_business, p.plan_name)))).map
    (fun q => ProductRow.mk (deriveProductKey q.1 q.2) q.1 q.2)

/-! ## The calendar underlying `pd.date_range(..., freq="D")` -/

/-- Gregorian leap-year rule. -/
def isLeapYear (y : Nat) : Bool :=
  (y % 4 == 0 && y % 100 != 0) || (y % 400 == 0)

/-- Number of days of month `m` of year `y`. -/
def daysInMonth (y m : Nat) : Nat :=
  if m = 2 then (if isLeapYear y then 29 else 28)
  else if m = 4 ∨ m = 6 ∨ m = 9 ∨ m = 11 then 30
  else 31

/-- A structurally well-formed calendar date (every `pd.Timestamp` date
satisfies this). -/
def Date.valid (d : Date) : Prop :=
  1 ≤ d.month ∧ d.month ≤ 12 ∧ 1 ≤ d.day ∧ d.day ≤ daysInMonth d.year d.month

instance (d : Date) : Decidable d.valid := by
  unfold Date.valid; exact inferInstance

/-- Mirrors `strftime("%Y%m%d").astype(int)`: the `YYYYMMDD` integer key. -/
def dateKey (d : Date) : Nat :=
  d.year * 10000 + d.month * 100 + d.day

/-- Chronological strict order on dates (how `pd.Timestamp` compares). -/
def dlt (a b : Date) : Bool :=
  if a.year < b.year then true
  else if b.year < a.year then false
  else if a.month < b.month then true
  else if b.month < a.month then false
  else decide (a.day < b.day)

/-- Chronological non-strict order on dates. -/
def dle (a b : Date) : Bool := !(dlt b a)

/-- The calendar successor of a date (the `freq="D"` step). -/
def nextDay (d : Date) : Date :=
  if d.day < daysInMonth d.year d.month then ⟨d.year, d.month, d.day + 1⟩
  else if d.month < 12 then ⟨d.year, d.month + 1, 1⟩
  else ⟨d.year + 1, 1, 1⟩

/-- Day enumeration with explicit fuel (the fuel is sized so that it never
runs out on the range actually requested). -/
def dateRangeAux : Nat → Date → Date → List Date
  | 0, _, _ => []
  | fuel + 1, lo, hi =>
      if dle lo hi then lo :: dateRangeAux fuel (nextDay lo) hi else []

/-- Mirrors `pd.date_range(lo, hi, freq="D")`: every calendar day from `lo` to
`hi` inclusive (empty when `lo` is after `hi`). -/
def date_range (lo hi : Date) : List Date :=
  dateRangeAux (dateKey hi + 1 - dateKey lo) lo hi

/-! ## The time-dimension row -/

/-- Mirrors `strftime("%B")`. -/
def monthName : Nat → String
  | 1 => "January" | 2 => "February" | 3 => "March" | 4 => "April"
  | 5 => "May" | 6 => "June" | 7 => "July" | 8 => "August"
  | 9 => "September" | 10 => "October" | 11 => "November" | 12 => "December"
  | _ => ""

/-- Zero-pad a number to two digits (`%m`). -/
def pad2 (n : Nat) : String :=
  if n < 10 then "0" ++ toString n else toString n

/-- Zero-pad a number to four digits (`%Y`). -/
def pad4 (n : Nat) : String :=
  if n < 10 then "000" ++ toString n
  else if n < 100 then "00" ++ toString n
  else if n < 1000 then "0" ++ toString n
  else toString n

/-- Day of week with Monday = 0 (pandas `DatetimeIndex.weekday`), via
Sakamoto's congruence (which yields Sunday = 0, shifted by 6). -/
def weekdayMon0 (d : Date) : Nat :=
  let t := [0, 3, 2, 5, 0, 3, 5, 1, 4, 6, 2, 4]
  let y := if d.month < 3 then d.year - 1 else d.year
  ((y + y / 4 + y / 400 + t.getD (d.month - 1) 0 + d.day) - y / 100 + 6) % 7

/-- A `dim_time` row. -/
structure TimeRow where
  date_key : Nat
  full_date : Date
  year : Nat
  month : Nat
  month_name : String
  quarter : Nat
  year_month : String
  day_of_week : Nat
  is_weekend : Bool
deriving DecidableEq

/-- The columns `build_dim_time` computes for one day of the range. -/
def mkTimeRow (d : Date) : TimeRow :=
  { date_key := dateKey d
    full_date := d
    year := d.year
    month := d.month
    month_name := monthName d.month
    quarter := (d.month + 2) / 3
    year_month := pad4 d.year ++ "-" ++ pad2 d.month
    day_of_week := weekdayMon0 d + 1
    is_weekend := decide (5 ≤ weekdayMon0 d) }

/-! ## Series minima and the Python `min` over them

`build_dim_time` computes `min(s.min() for s in dates)` where each `s` is
a `to_datetime(..., errors="coerce")` series.  `Series.min` skips `NaT`
wherever it occurs and returns `NaT` only when the series holds no valid
value.  Python's builtin `min`/`max`, by contrast, compares with `<`/`>`,
and every comparison against `NaT` is false — so once the running value
is `NaT` (in particular when the *first* series is all-`NaT`) it is never
replaced.  Both behaviours are modelled exactly. -/

/-- One comparison step of `Series.min`/`Series.max`: `NaT` is skipped;
`better b a` reads "`b` replaces the running value `a`" (`dlt b a` for a
minimum, `dlt a b` for a maximum). -/
def seriesStep (better : Date → Date → Bool) (acc x : Option Date) :
    Option Date :=
  match acc, x with
  | none, x => x
  | some a, none => some a
  | some a, some b => if better b a then some b else some a

/-- One step of Python's builtin `min`/`max` over `Timestamp`/`NaT`
values: `if better(x, acc) then x else acc`, where every comparison
against `NaT` is false — so a `NaT` running value is never replaced. -/
def pyStep (better : Date → Date → Bool) (acc x : Option Date) :
    Option Date :=
  match acc, x with
  | none, _ => none
  | some a, none => some a
  | some a, some b => if better b a then some b else some a

/-- Mirrors `Series.min()` for a date series (`none` = `NaT`). -/
def seriesMin (xs : List (Option Date)) : Option Date :=
  xs.foldl (seriesStep (fun b a => dlt b a)) none

/-- Mirrors `Series.max()` for a date series (`none` = `NaT`). -/
def seriesMax (xs : List (Option Date)) : Option Date :=
  xs.foldl (seriesStep (fun b a => dlt a b)) none

/-- Python's builtin `min` over a non-empty list of `Timestamp`/`NaT`:
fold from the first element with `NaT`-false comparisons. -/
def pyMin : List (Option Date) → Option Date
  | [] => none
  | x :: xs => xs.foldl (pyStep (fun b a => dlt b a)) x

/-- Python's builtin `max` over a non-empty list of `Timestamp`/`NaT`:
fold from the first element with `NaT`-false comparisons. -/
def pyMax : List (Option Date) → Option Date
  | [] => none
  | x :: xs => xs.foldl (pyStep (fun b a => dlt a b)) x

/-! ## Dimension Builder: time -/

/-- The four coerced date series of `build_dim_time`, in source order:
policy effective and expiration, then claim incident and report dates. -/
def dateSeries (policies : List PolicyRow) (claims : List ClaimRow) :
    List (List (Option Date)) :=
  [policies.map (fun p => p.effective_date),
   policies.map (fun p => p.expiration_date),
   claims.map (fun c => c.incident_date),
   claims.map (fun c => c.report_date)]

/-- Mirrors `build_dim_time`: one row per calendar day between the minimum and
maximum observed date.  Returns `none` when `min(...)` or `max(...)`
evaluates to `NaT`, in which case `pd.date_range` raises. -/
def build_dim_time (policies : List PolicyRow) (claims : List ClaimRow) :
    Option (List TimeRow) :=
  match pyMin ((dateSeries policies claims).map seriesMin),
        pyMax ((dateSeries policies claims).map seriesMax) with
  | some lo, some hi => some ((date_range lo hi).map mkTimeRow)
  | _, _ => none

/-! ## Fact rows (the staged star-schema tables) -/

/-- A `fact_policies` row. -/
structure FactPolicyRow where
  policy_id : Nat
  product_key : String
  state_code : String
  region_code : String
  effective_date_key : Nat
  expiration_date_key : Nat
  policy_year : Nat
  policy_month : Nat
  status : String
  risk_score : Int
  monthly_premium : Int
  annual_premium : Int
deriving DecidableEq

/-- A `fact_claims` row.  The enrichment columns coming from the left
join (`product_key`, `line_of_business`, `state_code`, `region_code`)
are `none` (NaN) for a claim whose `policy_id` matched no policy. -/
structure FactClaimRow where
  claim_id : Nat
  policy_id : Nat
  product_key : Option String
  line_of_business : Option String
  state_code : Option String
  region_code : Option String
  claim_type : String
  claim_status : String
  fraud_flag : Bool
  incident_date_key : Nat
  report_date_key : Nat
  settlement_date_key : Option Nat
  days_to_settle : Option Nat
  claim_amount_requested : Int
  claim_amount_approved : Int
  claim_amount_paid : Int
deriving DecidableEq

/-- A `fact_expenses` row. -/
structure FactExpenseRow where
  expense_id : Nat
  expense_category : String
  state_code : String
  region_code : String
  date_key : Nat
  expense_amount : Int
deriving DecidableEq

/-- A `fact_taxes` row (`date_key` intentionally null). -/
structure FactTaxRow where
  tax_id : Nat
  policy_id : Nat
  tax_type : String
  state_code : String
  date_key : Option Nat
  tax_base : Option Int
  tax_rate : Int
  tax_amount : Int
deriving DecidableEq

/-! ## Fact Builder: policies -/

/-- The row `build_fact_policies` derives from one policy whose two dates
parsed to `eff` and `exp`. -/
def factPolicyRow (p : PolicyRow) (eff exp : Date) : FactPolicyRow :=
  { policy_id := p.policy_id
    product_key := deriveProductKey p.line_of_business p.plan_name
    state_code := p.state_code
    region_code := p.region_code
    effective_date_key := dateKey eff
    expiration_date_key := dateKey exp
    policy_year := eff.year
    policy_month := eff.month
    status := p.status
    risk_score := p.risk_score
    monthly_premium := p.monthly_premium
    annual_premium := p.annual_premium }

/-- Mirrors `build_fact_policies`: one fact row per policy row.  The source calls
`pd.to_datetime` without `errors="coerce"`, so an unparseable date raises;
the embedding returns `none` in that case. -/
def build_fact_policies (policies : List PolicyRow) :
    Option (List FactPolicyRow) :=
  policies.mapM (fun p =>
    match p.effective_date, p.expiration_date with
    | some eff, some exp => some (factPolicyRow p eff exp)
    | _, _ => none)

/-! ## Fact Builder: claims -/

/-- The policy columns selected for the left join in `build_fact_claims`:
`[policy_id, state_code, region_code, line_of_business, plan_name]`
(the id itself is the join key and is kept on the claim side). -/
structure PolicyJoinCols where
  state_code : String
  region_code : String
  line_of_business : String
  plan_name : String
deriving DecidableEq

/-- Projection of a policy row onto the joined columns. -/
def policyJoinCols (p : PolicyRow) : PolicyJoinCols :=
  ⟨p.state_code, p.region_code, p.line_of_business, p.plan_name⟩

/-- Mirrors `claims.merge(policies[...], on="policy_id", how="left")`: every
claim row is kept; a claim with matching policies yields one output row
per match (in policy order), a claim with no match yields a single row
with null (`none`) enrichment columns. -/
def leftJoinClaims (claims : List ClaimRow) (policies : List PolicyRow) :
    List (ClaimRow × Option PolicyJoinCols) :=
  claims.flatMap (fun c =>
    match policies.filter (fun p => p.policy_id == c.policy_id) with
    | [] => [(c, none)]
    | ms => ms.map (fun p => (c, some (policyJoinCols p))))

/-- The row `build_fact_claims` derives from one joined claim whose two
dates parsed to `inc` and `rep`. -/
def factClaimRow (c : ClaimRow) (j : Option PolicyJoinCols)
    (inc rep : Date) : FactClaimRow :=
  { claim_id := c.claim_id
    policy_id := c.policy_id
    product_key := j.map (fun i => deriveProductKey i.line_of_business i.plan_name)
    line_of_business := j.map (fun i => i.line_of_business)
    state_code := j.map (fun i => i.state_code)
    region_code := j.map (fun i => i.region_code)
    claim_type := c.claim_type
    claim_status := c.claim_status
    fraud_flag := c.fraud_flag.getD false
    incident_date_key := dateKey inc
    report_date_key := dateKey rep
    settlement_date_key := none
    days_to_settle := none
    claim_amount_requested := c.claim_amount_requested
    claim_amount_approved := c.claim_amount_approved
    claim_amount_paid := c.claim_amount_paid }

/-- Mirrors `build_fact_claims`: left join against the policy columns, then derive
date keys (raising — `none` — on an unparseable incident or report date),
the product key over the joined columns, the boolean `fraud_flag`
(missing → `false`), and the null settlement placeholders. -/
def build_fact_claims (claims : List ClaimRow) (policies : List PolicyRow) :
    Option (List FactClaimRow) :=
  (leftJoinClaims claims policies).mapM (fun cj =>
    match cj.1.incident_date, cj.1.report_date with
    | some inc, some rep => some (factClaimRow cj.1 cj.2 inc rep)
    | _, _ => none)

/-! ## Pre-Load Validator (`05_healthcheck_normalizer.py`)

`fail` (`sys.exit(1)`) is modelled as `Except.error` carrying the printed
message; `warn` messages are collected in the success value.  The
required-column checks are vacuous in this typed embedding (a typed row
always carries its columns) and are therefore not reproduced. -/

/-- Mirrors `check_dim_time`: `date_key` must not be duplicated. -/
def check_dim_time (df : List TimeRow) : Except String Unit :=
  if hasDuplicates (df.map (fun r => r.date_key)) then
    .error "dim_time date_key is not unique"
  else .ok ()

/-- Mirrors `check_dim_state`: `state_code` must not be duplicated. -/
def check_dim_state (df : List StateRow) : Except String Unit :=
  if hasDuplicates (df.map (fun r => r.state_code)) then
    .error "Duplicate state_code in dim_state"
  else .ok ()

/-- Mirrors `check_dim_clients`: unique `client_id`; `state_code` resolves. -/
def check_dim_clients (df : List ClientRow) (dim_state : List StateRow) :
    Except String Unit :=
  if hasDuplicates (df.map (fun r => r.client_id)) then
    .error "Duplicate client_id in dim_clients"
  else if setDiff (df.map (fun r => r.state_code))
      (dim_state.map (fun r => r.state_code)) ≠ [] then
    .error "dim_clients references unknown state_code"
  else .ok ()

/-- Mirrors `check_dim_products`: unique `product_key`. -/
def check_dim_products (df : List ProductRow) : Except String Unit :=
  if hasDuplicates (df.map (fun r => r.product_key)) then
    .error "Duplicate product_key in dim_products"
  else .ok ()

/-- Mirrors `check_dim_policies`: unique `policy_id`; `client_id` and
`state_code` resolve. -/
def check_dim_policies (df : List PolicyDimRow) (dim_clients : List ClientRow)
    (dim_state : List StateRow) : Except String Unit :=
  if hasDuplicates (df.map (fun r => r.policy_id)) then
    .error "Duplicate policy_id in dim_policies"
  else if setDiff (df.map (fun r => r.client_id))
      (dim_clients.map (fun r => r.client_id)) ≠ [] then
    .error "dim_policies references unknown client_id"
  else if setDiff (df.map (fun r => r.state_code))
      (dim_state.map (fun r => r.state_code)) ≠ [] then
    .error "dim_policies references unknown state_code"
  else .ok ()

/-- Mirrors `check_fact_policies`: `policy_id`, `product_key`, `state_code` and
`effective_date_key` are fatal foreign keys; an `expiration_date_key`
outside `dim_time` only warns, carrying the count of distinct unresolved
keys. -/
def check_fact_policies (df : List FactPolicyRow) (dim_time : List TimeRow)
    (dim_policies : List PolicyDimRow) (dim_products : List ProductRow)
    (dim_state : List StateRow) : Except String (List String) :=
  if setDiff (df.map (fun r => r.policy_id))
      (dim_policies.map (fun r => r.policy_id)) ≠ [] then
    .error "fact_policies references unknown policy_id"
  else if setDiff (df.map (fun r => r.product_key))
      (dim_products.map (fun r => r.product_key)) ≠ [] then
    .error "fact_policies references unknown product_key"
  else if setDiff (df.map (fun r => r.state_code))
      (dim_state.map (fun r => r.state_code)) ≠ [] then
    .error "fact_policies references unknown state_code"
  else if setDiff (df.map (fun r => r.effective_date_key))
      (dim_time.map (fun r => r.date_key)) ≠ [] then
    .error "fact_policies has invalid effective_date_key"
  else
    let missing_exp := setDiff (df.map (fun r => r.expiration_date_key))
      (dim_time.map (fun r => r.date_key))
    .ok (if missing_exp ≠ [] then
      [toString missing_exp.length ++
        " expiration_date_key outside dim_time range (allowed)"]
    else [])

/-- Mirrors `check_fact_claims`: `policy_id`, `product_key`, `state_code`,
`incident_date_key` and `report_date_key` are fatal foreign keys; a
non-null `settlement_date_key` outside `dim_time` only warns, carrying
the count of distinct unresolved keys.  The nullable enrichment columns
compare against the dimension's (non-null) key sets, so a null
(`none`) value is itself unresolved — exactly as a pandas `NaN` is never
a member of `set(dim[...])`. -/
def check_fact_claims (df : List FactClaimRow) (dim_policies : List PolicyDimRow)
    (dim_products : List ProductRow) (dim_state : List StateRow)
    (dim_time : List TimeRow) : Except String (List String) :=
  if setDiff (df.map (fun r => r.policy_id))
      (dim_policies.map (fun r => r.policy_id)) ≠ [] then
    .error "fact_claims references unknown policy_id"
  else if setDiff (df.map (fun r => r.product_key))
      (dim_products.map (fun r => some r.product_key)) ≠ [] then
    .error "fact_claims references unknown product_key"
  else if setDiff (df.map (fun r => r.state_code))
      (dim_state.map (fun r => some r.state_code)) ≠ [] then
    .error "fact_claims references unknown state_code"
  else if setDiff (df.map (fun r => r.incident_date_key))
      (dim_time.map (fun r => r.date_key)) ≠ [] then
    .error "fact_claims has invalid incident_date_key"
  else if setDiff (df.map (fun r => r.report_date_key))
      (dim_time.map (fun r => r.date_key)) ≠ [] then
    .error "fact_claims has invalid report_date_key"
  else
    let valid := df.filterMap (fun r => r.settlement_date_key)
    let missing := setDiff valid (dim_time.map (fun r => r.date_key))
    .ok (if missing ≠ [] then
      [toString missing.length ++ " settlement_date_key outside dim_time (allowed)"]
    else [])

/-- Mirrors `check_fact_expenses`: `date_key` and `state_code` are fatal foreign
keys; any negative `expense_amount` is fatal. -/
def check_fact_expenses (df : List FactExpenseRow) (dim_time : List TimeRow)
    (dim_state : List StateRow) : Except String Unit :=
  if setDiff (df.map (fun r => r.date_key))
      (dim_time.map (fun r => r.date_key)) ≠ [] then
    .error "fact_expenses has invalid date_key"
  else if setDiff (df.map (fun r => r.state_code))
      (dim_state.map (fun r => r.state_code)) ≠ [] then
    .error "fact_expenses references unknown state_code"
  else if df.any (fun r => decide (r.expense_amount < 0)) then
    .error "Negative expense_amount in fact_expenses"
  else .ok ()

/-- Mirrors `check_fact_taxes`: `policy_id` and `state_code` are fatal foreign
keys; any negative `tax_amount` is fatal. -/
def check_fact_taxes (df : List FactTaxRow) (dim_policies : List PolicyDimRow)
    (dim_state : List StateRow) : Except String Unit :=
  if setDiff (df.map (fun r => r.policy_id))
      (dim_policies.map (fun r => r.policy_id)) ≠ [] then
    .error "fact_taxes references unknown policy_id"
  else if setDiff (df.map (fun r => r.state_code))
      (dim_state.map (fun r => r.state_code)) ≠ [] then
    .error "fact_taxes references unknown state_code"
  else if df.any (fun r => decide (r.tax_amount < 0)) then
    .error "Negative tax_amount in fact_taxes"
  else .ok ()

/-- Mirrors `sanity_checks`: warn (never fail) when the claims-to-policies row
ratio leaves `[0.03, 0.80]`; the float comparison is rendered as the
equivalent cross-multiplied integer comparison. -/
def sanity_checks (fact_policies : List FactPolicyRow)
    (fact_claims : List FactClaimRow) : List String :=
  let denom := max fact_policies.length 1
  if 100 * fact_claims.length < 3 * denom ∨
      5 * fact_claims.length > 4 * denom then
    ["Claims / Policies ratio unusual"]
  else []

/-- Mirrors `load_csv` of the validator: a present but empty table is fatal. -/
def require_nonempty {α : Type} (name : String) (l : List α) :
    Except String Unit :=
  if l.isEmpty then .error (name ++ " is empty") else .ok ()

/-- The validator's `main()`: load (rejecting empty tables) and run every
check in source order.  Returns the fatal message, or `()` on a pass. -/
def run_all_checks (dim_time : List TimeRow) (dim_state : List StateRow)
    (dim_clients : List ClientRow) (dim_products : List ProductRow)
    (dim_policies : List PolicyDimRow) (fact_policies : List FactPolicyRow)
    (fact_claims : List FactClaimRow) (fact_expenses : List FactExpenseRow)
    (fact_taxes : List FactTaxRow) : Except String Unit := do
  require_nonempty "dim_time.csv" dim_time
  require_nonempty "dim_state.csv" dim_state
  require_nonempty "dim_clients.csv" dim_clients
  require_nonempty "dim_products.csv" dim_products
  require_nonempty "dim_policies.csv" dim_policies
  require_nonempty "fact_policies.csv" fact_policies
  require_nonempty "fact_claims.csv" fact_claims
  require_nonempty "fact_expenses.csv" fact_expenses
  require_nonempty "fact_taxes.csv" fact_taxes
  check_dim_time dim_time
  check_dim_state dim_state
  check_dim_clients dim_clients dim_state
  check_dim_products dim_products
  check_dim_policies dim_policies dim_clients dim_state
  let _ ← check_fact_policies fact_policies dim_time dim_policies dim_products dim_state
  let _ ← check_fact_claims fact_claims dim_policies dim_products dim_state dim_time
  check_fact_expenses fact_expenses dim_time dim_state
  check_fact_taxes fact_taxes dim_policies dim_state
  pure ()

/-! ## Bulk Loader (`09_module_E_loader.py`)

The persistent store is modelled as nine row lists; the psycopg2
connection as a pair of stores, `committed` (visible after the
transaction ends) and `working` (the in-transaction view).  `execute`
and `copy_expert` act on `working` only; `commit` publishes `working`;
`rollback` restores `working` from `committed`.  A step that raises is
modelled by an oracle giving the index of the failing statement. -/

/-- The nine target tables. -/
inductive TableName where
  | fact_claims | fact_expenses | fact_taxes | fact_policies
  | dim_policies | dim_products | dim_clients | dim_state | dim_time
deriving DecidableEq

/-- Is the table one of the five dimensions? -/
def TableName.isDim : TableName → Bool
  | .dim_policies | .dim_products | .dim_clients | .dim_state | .dim_time => true
  | _ => false

/-- The contents of the persistent store, one row list per table (a row
is its delimited CSV line). -/
structure Store where
  fact_claims : List String
  fact_expenses : List String
  fact_taxes : List String
  fact_policies : List String
  dim_policies : List String
  dim_products : List String
  dim_clients : List String
  dim_state : List String
  dim_time : List String
deriving DecidableEq

/-- The nine staged CSV files under `output/normalized`. -/
structure Staged where
  fact_claims : List String
  fact_expenses : List String
  fact_taxes : List String
  fact_policies : List String
  dim_policies : List String
  dim_products : List String
  dim_clients : List String
  dim_state : List String
  dim_time : List String
deriving DecidableEq

/-- Row counts of the nine tables, in truncation order. -/
def Store.rowCounts (s : Store) : List Nat :=
  [s.fact_claims.length, s.fact_expenses.length, s.fact_taxes.length,
   s.fact_policies.length, s.dim_policies.length, s.dim_products.length,
   s.dim_clients.length, s.dim_state.length, s.dim_time.length]

/-- One SQL statement of the load transaction: a `TRUNCATE` listing
several tables, or a `COPY ... FROM STDIN` for one table. -/
inductive LoadStep where
  | truncateGroup (tables : List TableName)
  | copyTable (table : TableName)
deriving DecidableEq

/-- Empty one table of the store. -/
def truncateTable (s : Store) : TableName → Store
  | .fact_claims => { s with fact_claims := [] }
  | .fact_expenses => { s with fact_expenses := [] }
  | .fact_taxes => { s with fact_taxes := [] }
  | .fact_policies => { s with fact_policies := [] }
  | .dim_policies => { s with dim_policies := [] }
  | .dim_products => { s with dim_products := [] }
  | .dim_clients => { s with dim_clients := [] }
  | .dim_state => { s with dim_state := [] }
  | .dim_time => { s with dim_time := [] }

/-- Executes `COPY table FROM STDIN`: append the staged rows to the table. -/
def copyInto (staged : Staged) (s : Store) : TableName → Store
  | .fact_claims => { s with fact_claims := s.fact_claims ++ staged.fact_claims }
  | .fact_expenses => { s with fact_expenses := s.fact_expenses ++ staged.fact_expenses }
  | .fact_taxes => { s with fact_taxes := s.fact_taxes ++ staged.fact_taxes }
  | .fact_policies => { s with fact_policies := s.fact_policies ++ staged.fact_policies }
  | .dim_policies => { s with dim_policies := s.dim_policies ++ staged.dim_policies }
  | .dim_products => { s with dim_products := s.dim_products ++ staged.dim_products }
  | .dim_clients => { s with dim_clients := s.dim_clients ++ staged.dim_clients }
  | .dim_state => { s with dim_state := s.dim_state ++ staged.dim_state }
  | .dim_time => { s with dim_time := s.dim_time ++ staged.dim_time }

/-- Effect of one statement on the in-transaction view of the store. -/
def applyStep (staged : Staged) (s : Store) : LoadStep → Store
  | .truncateGroup ts => ts.foldl truncateTable s
  | .copyTable t => copyInto staged s t

/-- The statements `run()` executes inside its transaction, in source
order: two `TRUNCATE` statements (facts, then dimensions), then one
`COPY` per table (dimensions, then facts). -/
def loadSteps : List LoadStep :=
  [LoadStep.truncateGroup [TableName.fact_claims, TableName.fact_expenses,
    TableName.fact_taxes, TableName.fact_policies],
   LoadStep.truncateGroup [TableName.dim_policies, TableName.dim_products,
    TableName.dim_clients, TableName.dim_state, TableName.dim_time],
   LoadStep.copyTable TableName.dim_time,
   LoadStep.copyTable TableName.dim_state,
   LoadStep.copyTable TableName.dim_clients,
   LoadStep.copyTable TableName.dim_products,
   LoadStep.copyTable TableName.dim_policies,
   LoadStep.copyTable TableName.fact_policies,
   LoadStep.copyTable TableName.fact_claims,
   LoadStep.copyTable TableName.fact_expenses,
   LoadStep.copyTable TableName.fact_taxes]

/-- The order in which `run()` truncates the nine tables. -/
def truncateOrder : List TableName :=
  loadSteps.flatMap (fun s =>
    match s with
    | .truncateGroup ts => ts
    | .copyTable _ => [])

/-- The order in which `run()` loads (`COPY`s) the nine tables. -/
def loadOrder : List TableName :=
  loadSteps.filterMap (fun s =>
    match s with
    | .copyTable t => some t
    | .truncateGroup _ => none)

/-- A psycopg2 connection: the committed store and the in-transaction
working view. -/
structure Conn where
  committed : Store
  working : Store
deriving DecidableEq

/-- Mirrors `cur.execute` / `cur.copy_expert`: acts on the working view only. -/
def Conn.execStep (c : Conn) (staged : Staged) (s : LoadStep) : Conn :=
  { c with working := applyStep staged c.working s }

/-- Mirrors `conn.commit()`. -/
def Conn.commit (c : Conn) : Conn :=
  { committed := c.working, working := c.working }

/-- Mirrors `conn.rollback()`. -/
def Conn.rollback (c : Conn) : Conn :=
  { c with working := c.committed }

/-- Execute the statements from index `i` on, stopping with the current
connection when the oracle says statement `i` raises. -/
def execStepsFrom (staged : Staged) (failAt : Option Nat) :
    Nat → List LoadStep → Conn → Except (String × Conn) Conn
  | _, [], c => .ok c
  | i, s :: rest, c =>
      if failAt = some i then .error ("load step " ++ toString i ++ " raised", c)
      else execStepsFrom staged failAt (i + 1) rest (c.execStep staged s)

/-- Mirrors `run()`: open a transaction over the current store, truncate and load
inside it, commit on success; on any raised step, roll the transaction
back and re-raise a wrapped fatal error.  Returns the error (if any) and
the store visible after the run. -/
def run_loader (store : Store) (staged : Staged) (failAt : Option Nat) :
    Option String × Store :=
  match execStepsFrom staged failAt 0 loadSteps (Conn.mk store store) with
  | .ok c => (none, c.commit.committed)
  | .error (e, c) => (some ("Module 09 v1 FAILED: " ++ e), c.rollback.committed)

/-- Modelled from the spec: the stage sequencing of §2 — the Pre-Load
Validator is a gate, and the Bulk Loader runs only when it passes.  The
runner that invokes the numbered scripts in order is not part of `src/`,
so only this gating shape is taken from the spec. -/
def gatedLoad (checks : Except String Unit) (load : Store → Store)
    (store : Store) : Store :=
  match checks with
  | .error _ => store
  | .ok _ => load store

/-! ## Order lemmas for the chronological comparison -/

theorem dlt_iff (a b : Date) : dlt a b = true ↔
    (a.year < b.year ∨ (a.year = b.year ∧
      (a.month < b.month ∨ (a.month = b.month ∧ a.day < b.day)))) := by
  unfold dlt
  split_ifs with h1 h2 h3 h4 <;> simp [decide_eq_true_iff] <;> omega

theorem dle_iff (a b : Date) : dle a b = true ↔
    (a.year < b.year ∨ (a.year = b.year ∧
      (a.month < b.month ∨ (a.month = b.month ∧ a.day ≤ b.day)))) := by
  have h := dlt_iff b a
  unfold dle
  rw [Bool.not_eq_true', Bool.eq_false_iff, Ne, h]
  omega

theorem dle_refl (a : Date) : dle a a = true := by
  rw [dle_iff]; omega

theorem dle_trans {a b c : Date} (h1 : dle a b = true) (h2 : dle b c = true) :
    dle a c = true := by
  rw [dle_iff] at h1 h2 ⊢
  omega

theorem dle_of_dlt {a b : Date} (h : dlt a b = true) : dle a b = true := by
  rw [dlt_iff] at h
  rw [dle_iff]
  omega

theorem dlt_trans {a b c : Date} (h1 : dlt a b = true) (h2 : dlt b c = true) :
    dlt a c = true := by
  rw [dlt_iff] at h1 h2 ⊢
  omega

theorem dlt_co {a b c : Date} (h : dlt a c = true) :
    dlt a b = true ∨ dlt b c = true := by
  rw [dlt_iff] at h ⊢
  rw [dlt_iff]
  omega

theorem dlt_of_dle_of_ne {a b : Date} (h1 : dle a b = true) (h2 : a ≠ b) :
    dlt a b = true := by
  cases a with
  | mk ya ma da =>
    cases b with
    | mk yb mb db =>
      rw [dle_iff] at h1
      rw [dlt_iff]
      simp only [ne_eq, Date.mk.injEq] at h2
      dsimp only at h1 ⊢
      omega

theorem dlt_asymm {a b : Date} (h : dlt a b = true) : dlt b a = false := by
  rw [dlt_iff] at h
  rw [Bool.eq_false_iff]
  intro hc
  rw [dlt_iff] at hc
  omega

/-! ## Calendar lemmas -/

theorem daysInMonth_pos (y m : Nat) : 1 ≤ daysInMonth y m := by
  unfold daysInMonth
  split_ifs <;> omega

theorem daysInMonth_le (y m : Nat) : daysInMonth y m ≤ 31 := by
  unfold daysInMonth
  split_ifs <;> omega

theorem nextDay_valid {d : Date} (h : d.valid) : (nextDay d).valid := by
  obtain ⟨h1, h2, h3, h4⟩ := h
  unfold nextDay
  split_ifs with ha hb
  · exact ⟨h1, h2, by dsimp only; omega, by dsimp only; omega⟩
  · exact ⟨by dsimp only; omega, by dsimp only; omega, le_refl 1, daysInMonth_pos _ _⟩
  · exact ⟨le_refl 1, by dsimp only; omega, le_refl 1, daysInMonth_pos _ _⟩

theorem dlt_nextDay {d : Date} (h : d.valid) : dlt d (nextDay d) = true := by
  obtain ⟨h1, h2, h3, h4⟩ := h
  unfold nextDay
  split_ifs with ha hb <;> rw [dlt_iff] <;> dsimp only <;> omega

theorem dateKey_lt_nextDay {d : Date} (h : d.valid) :
    dateKey d < dateKey (nextDay d) := by
  obtain ⟨h1, h2, h3, h4⟩ := h
  have h31 := daysInMonth_le d.year d.month
  unfold nextDay dateKey
  split_ifs with ha hb <;> dsimp only <;> omega

theorem dlt_iff_dateKey {a b : Date} (ha : a.valid) (hb : b.valid) :
    dlt a b = true ↔ dateKey a < dateKey b := by
  obtain ⟨ha1, ha2, ha3, ha4⟩ := ha
  obtain ⟨hb1, hb2, hb3, hb4⟩ := hb
  have ha31 := daysInMonth_le a.year a.month
  have hb31 := daysInMonth_le b.year b.month
  rw [dlt_iff]
  unfold dateKey
  omega

theorem dle_iff_dateKey {a b : Date} (ha : a.valid) (hb : b.valid) :
    dle a b = true ↔ dateKey a ≤ dateKey b := by
  obtain ⟨ha1, ha2, ha3, ha4⟩ := ha
  obtain ⟨hb1, hb2, hb3, hb4⟩ := hb
  have ha31 := daysInMonth_le a.year a.month
  have hb31 := daysInMonth_le b.year b.month
  rw [dle_iff]
  unfold dateKey
  omega

theorem nextDay_dle_of_dlt {a b : Date} (ha : a.valid) (hb : b.valid)
    (h : dlt a b = true) : dle (nextDay a) b = true := by
  obtain ⟨ha1, ha2, ha3, ha4⟩ := ha
  obtain ⟨hb1, hb2, hb3, hb4⟩ := hb
  rw [dlt_iff] at h
  unfold nextDay
  split_ifs with hc hd <;> rw [dle_iff] <;> dsimp only
  · omega
  · -- a.day = daysInMonth a.year a.month and a.month < 12
    rcases h with h | ⟨hy, h⟩
    · omega
    rcases h with h | ⟨hm, h⟩
    · omega
    · -- same year and month: b.day would exceed the month length
      exfalso
      rw [← hy, ← hm] at hb4
      omega
  · -- a.day = daysInMonth a.year a.month and a.month = 12
    rcases h with h | ⟨hy, h⟩
    · omega
    rcases h with h | ⟨hm, h⟩
    · omega
    · exfalso
      rw [← hy, ← hm] at hb4
      omega

/-! ## Lemmas about the enumerated day range -/

theorem mem_dateRangeAux {f : Nat} {lo hi e : Date} (hlo : lo.valid)
    (he : e ∈ dateRangeAux f lo hi) :
    e.valid ∧ dle lo e = true ∧ dle e hi = true := by
  induction f generalizing lo with
  | zero => simp [dateRangeAux] at he
  | succ f ih =>
    unfold dateRangeAux at he
    split_ifs at he with hle
    · rcases List.mem_cons.mp he with rfl | he2
      · exact ⟨hlo, dle_refl _, hle⟩
      · obtain ⟨hv, h1, h2⟩ := ih (nextDay_valid hlo) he2
        exact ⟨hv, dle_trans (dle_of_dlt (dlt_nextDay hlo)) h1, h2⟩
    · simp at he

theorem mem_dateRangeAux_of_between {f : Nat} {lo hi e : Date}
    (hlo : lo.valid) (hhi : hi.valid) (he : e.valid)
    (h1 : dle lo e = true) (h2 : dle e hi = true)
    (hf : dateKey hi + 1 - dateKey lo ≤ f) : e ∈ dateRangeAux f lo hi := by
  induction f generalizing lo with
  | zero =>
    exfalso
    have k1 := (dle_iff_dateKey hlo he).mp h1
    have k2 := (dle_iff_dateKey he hhi).mp h2
    omega
  | succ f ih =>
    unfold dateRangeAux
    rw [if_pos (dle_trans h1 h2)]
    by_cases heq : e = lo
    · rw [heq]
      exact List.mem_cons_self _ _
    · have hlt : dlt lo e = true :=
        dlt_of_dle_of_ne h1 (fun hh => heq hh.symm)
      have h1n : dle (nextDay lo) e = true := nextDay_dle_of_dlt hlo he hlt
      have hk := dateKey_lt_nextDay hlo
      have k1 := (dle_iff_dateKey hlo he).mp h1
      exact List.mem_cons_of_mem _
        (ih (nextDay_valid hlo) h1n (by omega))

theorem pairwise_dateRangeAux {f : Nat} {lo hi : Date} (hlo : lo.valid) :
    List.Pairwise (fun a b => dateKey a < dateKey b) (dateRangeAux f lo hi) := by
  induction f generalizing lo with
  | zero => simp [dateRangeAux]
  | succ f ih =>
    unfold dateRangeAux
    split_ifs with hle
    · rw [List.pairwise_cons]
      constructor
      · intro b hb
        obtain ⟨hv, h1, _⟩ := mem_dateRangeAux (nextDay_valid hlo) hb
        have hk := dateKey_lt_nextDay hlo
        have hk2 := (dle_iff_dateKey (nextDay_valid hlo) hv).mp h1
        omega
      · exact ih (nextDay_valid hlo)
    · exact List.Pairwise.nil

theorem chain_dateRangeAux {f : Nat} {lo hi : Date} :
    List.Chain' (fun a b => b = nextDay a) (dateRangeAux f lo hi) := by
  induction f generalizing lo with
  | zero => simp [dateRangeAux]
  | succ f ih =>
    unfold dateRangeAux
    split_ifs with hle
    · rw [List.chain'_cons']
      refine ⟨?_, ih⟩
      intro y hy
      cases f with
      | zero => simp [dateRangeAux] at hy
      | succ f2 =>
        unfold dateRangeAux at hy
        split_ifs at hy with h2
        · simp at hy
          exact hy.symm
        · simp at hy
    · exact List.chain'_nil

theorem mem_date_range_iff {lo hi e : Date} (hlo : lo.valid) (hhi : hi.valid)
    (he : e.valid) :
    e ∈ date_range lo hi ↔ (dle lo e = true ∧ dle e hi = true) := by
  constructor
  · intro h
    exact (mem_dateRangeAux hlo h).2
  · intro ⟨h1, h2⟩
    exact mem_dateRangeAux_of_between hlo hhi he h1 h2 (le_refl _)

theorem nodup_dateKeys_date_range {lo hi : Date} (hlo : lo.valid) :
    ((date_range lo hi).map dateKey).Nodup := by
  have hp : List.Pairwise (fun a b => dateKey a < dateKey b) (date_range lo hi) :=
    pairwise_dateRangeAux hlo
  have hm := List.pairwise_map.mpr hp
  exact hm.imp (fun h => Nat.ne_of_lt h)

theorem chain_date_range {lo hi : Date} :
    List.Chain' (fun a b => b = nextDay a) (date_range lo hi) :=
  chain_dateRangeAux

/-! ## Lemmas about the series and Python folds -/

theorem dlt_irrefl (a : Date) : dlt a a = false := by
  rw [Bool.eq_false_iff]
  intro h
  rw [dlt_iff] at h
  omega

theorem foldl_pyStep_none {better : Date → Date → Bool}
    {xs : List (Option Date)} : xs.foldl (pyStep better) none = none := by
  induction xs with
  | nil => rfl
  | cons x xs ih => exact ih

theorem foldl_seriesStep_some {better : Date → Date → Bool}
    {xs : List (Option Date)} {a : Date} :
    ∃ r, xs.foldl (seriesStep better) (some a) = some r := by
  induction xs generalizing a with
  | nil => exact ⟨a, rfl⟩
  | cons x xs ih =>
    cases x with
    | none => exact ih
    | some b =>
      show ∃ r, xs.foldl (seriesStep better)
        (if better b a then some b else some a) = some r
      split_ifs <;> exact ih

theorem foldl_pyStep_some {better : Date → Date → Bool}
    {xs : List (Option Date)} {a : Date} :
    ∃ r, xs.foldl (pyStep better) (some a) = some r := by
  induction xs generalizing a with
  | nil => exact ⟨a, rfl⟩
  | cons x xs ih =>
    cases x with
    | none => exact ih
    | some b =>
      show ∃ r, xs.foldl (pyStep better)
        (if better b a then some b else some a) = some r
      split_ifs <;> exact ih

theorem foldl_seriesStep_isSome_of_mem {better : Date → Date → Bool}
    {xs : List (Option Date)} {d : Date} (hd : some d ∈ xs) :
    ∀ acc, ∃ r, xs.foldl (seriesStep better) acc = some r := by
  induction xs with
  | nil => cases hd
  | cons x xs ih =>
    intro acc
    rcases List.mem_cons.mp hd with hx | hx
    · rw [← hx]
      cases acc with
      | none => exact foldl_seriesStep_some
      | some a =>
        show ∃ r, xs.foldl (seriesStep better)
          (if better d a then some d else some a) = some r
        split_ifs <;> exact foldl_seriesStep_some
    · exact ih hx _

theorem foldl_seriesStep_mem {better : Date → Date → Bool}
    {xs : List (Option Date)} {acc : Option Date} {r : Date}
    (h : xs.foldl (seriesStep better) acc = some r) :
    acc = some r ∨ some r ∈ xs := by
  induction xs generalizing acc with
  | nil => exact Or.inl h
  | cons x xs ih =>
    rcases ih h with hstep | hmem
    · cases acc with
      | none =>
        right
        rw [show seriesStep better none x = x from rfl] at hstep
        rw [hstep]
        exact List.mem_cons_self _ _
      | some a =>
        cases x with
        | none => exact Or.inl hstep
        | some b =>
          by_cases hb : better b a
          · right
            rw [show seriesStep better (some a) (some b) =
              (if better b a then some b else some a) from rfl, if_pos hb] at hstep
            rw [hstep]
            exact List.mem_cons_self _ _
          · left
            rw [show seriesStep better (some a) (some b) =
              (if better b a then some b else some a) from rfl, if_neg hb] at hstep
            exact hstep
    · exact Or.inr (List.mem_cons_of_mem _ hmem)

theorem foldl_pyStep_mem {better : Date → Date → Bool}
    {xs : List (Option Date)} {acc : Option Date} {r : Date}
    (h : xs.foldl (pyStep better) acc = some r) :
    acc = some r ∨ some r ∈ xs := by
  induction xs generalizing acc with
  | nil => exact Or.inl h
  | cons x xs ih =>
    rcases ih h with hstep | hmem
    · cases acc with
      | none => cases hstep
      | some a =>
        cases x with
        | none => exact Or.inl hstep
        | some b =>
          by_cases hb : better b a
          · right
            rw [show pyStep better (some a) (some b) =
              (if better b a then some b else some a) from rfl, if_pos hb] at hstep
            rw [hstep]
            exact List.mem_cons_self _ _
          · left
            rw [show pyStep better (some a) (some b) =
              (if better b a then some b else some a) from rfl, if_neg hb] at hstep
            exact hstep
    · exact Or.inr (List.mem_cons_of_mem _ hmem)

theorem foldl_seriesStep_bound {better : Date → Date → Bool}
    (Hirr : ∀ x, better x x = false)
    (Htrans : ∀ x y z, better x y = true → better y z = true → better x z = true)
    (Hco : ∀ x y z, better x z = true → better x y = true ∨ better y z = true)
    {xs : List (Option Date)} {acc : Option Date} {r : Date}
    (h : xs.foldl (seriesStep better) acc = some r) :
    ∀ d, (acc = some d ∨ some d ∈ xs) → better d r = false := by
  induction xs generalizing acc with
  | nil =>
    intro d hd
    rcases hd with hd | hd
    · rw [List.foldl_nil, hd] at h
      cases h
      exact Hirr _
    · cases hd
  | cons x xs ih =>
    intro d hd
    rcases hd with hd | hd
    · cases hd
      cases x with
      | none => exact ih h d (Or.inl rfl)
      | some b =>
        by_cases hb : better b d
        · have hsb : seriesStep better (some d) (some b) = some b := by
            rw [show seriesStep better (some d) (some b) =
              (if better b d then some b else some d) from rfl, if_pos hb]
          have hbr := ih h b (Or.inl hsb)
          rw [Bool.eq_false_iff]
          intro hdr
          rw [Htrans b d r hb hdr] at hbr
          cases hbr
        · have hsd : seriesStep better (some d) (some b) = some d := by
            rw [show seriesStep better (some d) (some b) =
              (if better b d then some b else some d) from rfl, if_neg hb]
          exact ih h d (Or.inl hsd)
    · rcases List.mem_cons.mp hd with hx | hx
      · cases hx
        cases acc with
        | none => exact ih h d (Or.inl rfl)
        | some a =>
          by_cases hda : better d a
          · have hsd : seriesStep better (some a) (some d) = some d := by
              rw [show seriesStep better (some a) (some d) =
                (if better d a then some d else some a) from rfl, if_pos hda]
            exact ih h d (Or.inl hsd)
          · have hsa : seriesStep better (some a) (some d) = some a := by
              rw [show seriesStep better (some a) (some d) =
                (if better d a then some d else some a) from rfl, if_neg hda]
            have har := ih h a (Or.inl hsa)
            rw [Bool.eq_false_iff]
            intro hdr
            rcases Hco d a r hdr with hc | hc
            · rw [hc] at hda
              exact hda rfl
            · rw [hc] at har
              cases har
      · exact ih h d (Or.inr hx)

theorem foldl_pyStep_bound {better : Date → Date → Bool}
    (Hirr : ∀ x, better x x = false)
    (Htrans : ∀ x y z, better x y = true → better y z = true → better x z = true)
    (Hco : ∀ x y z, better x z = true → better x y = true ∨ better y z = true)
    {xs : List (Option Date)} {acc : Option Date} {r : Date}
    (h : xs.foldl (pyStep better) acc = some r) :
    ∀ d, (acc = some d ∨ some d ∈ xs) → better d r = false := by
  induction xs generalizing acc with
  | nil =>
    intro d hd
    rcases hd with hd | hd
    · rw [List.foldl_nil, hd] at h
      cases h
      exact Hirr _
    · cases hd
  | cons x xs ih =>
    intro d hd
    rcases hd with hd | hd
    · cases hd
      cases x with
      | none => exact ih h d (Or.inl rfl)
      | some b =>
        by_cases hb : better b d
        · have hsb : pyStep better (some d) (some b) = some b := by
            rw [show pyStep better (some d) (some b) =
              (if better b d then some b else some d) from rfl, if_pos hb]
          have hbr := ih h b (Or.inl hsb)
          rw [Bool.eq_false_iff]
          intro hdr
          rw [Htrans b d r hb hdr] at hbr
          cases hbr
        · have hsd : pyStep better (some d) (some b) = some d := by
            rw [show pyStep better (some d) (some b) =
              (if better b d then some b else some d) from rfl, if_neg hb]
          exact ih h d (Or.inl hsd)
    · rcases List.mem_cons.mp hd with hx | hx
      · cases hx
        cases acc with
        | none =>
          rw [foldl_pyStep_none] at h
          cases h
        | some a =>
          by_cases hda : better d a
          · have hsd : pyStep better (some a) (some d) = some d := by
              rw [show pyStep better (some a) (some d) =
                (if better d a then some d else some a) from rfl, if_pos hda]
            exact ih h d (Or.inl hsd)
          · have hsa : pyStep better (some a) (some d) = some a := by
              rw [show pyStep better (some a) (some d) =
                (if better d a then some d else some a) from rfl, if_neg hda]
            have har := ih h a (Or.inl hsa)
            rw [Bool.eq_false_iff]
            intro hdr
            rcases Hco d a r hdr with hc | hc
            · rw [hc] at hda
              exact hda rfl
            · rw [hc] at har
              cases har
      · exact ih h d (Or.inr hx)

theorem foldl_seriesStep_all_none {better : Date → Date → Bool}
    {xs : List (Option Date)} (h : ∀ x ∈ xs, x = none) :
    xs.foldl (seriesStep better) none = none := by
  induction xs with
  | nil => rfl
  | cons x xs ih =>
    rw [h x (List.mem_cons_self _ _)]
    exact ih (fun y hy => h y (List.mem_cons_of_mem _ hy))

/-! ## Minimum / maximum wrappers -/

theorem seriesMin_isSome_of_mem {xs : List (Option Date)} {d : Date}
    (hd : some d ∈ xs) : ∃ r, seriesMin xs = some r :=
  foldl_seriesStep_isSome_of_mem hd none

theorem seriesMax_isSome_of_mem {xs : List (Option Date)} {d : Date}
    (hd : some d ∈ xs) : ∃ r, seriesMax xs = some r :=
  foldl_seriesStep_isSome_of_mem hd none

theorem seriesMin_mem {xs : List (Option Date)} {r : Date}
    (h : seriesMin xs = some r) : some r ∈ xs := by
  rcases foldl_seriesStep_mem h with h2 | h2
  · cases h2
  · exact h2

theorem seriesMax_mem {xs : List (Option Date)} {r : Date}
    (h : seriesMax xs = some r) : some r ∈ xs := by
  rcases foldl_seriesStep_mem h with h2 | h2
  · cases h2
  · exact h2

theorem seriesMin_le {xs : List (Option Date)} {r d : Date}
    (h : seriesMin xs = some r) (hd : some d ∈ xs) : dle r d = true := by
  have hb := @foldl_seriesStep_bound (fun b a => dlt b a)
    (fun x => dlt_irrefl x)
    (fun x y z h1 h2 => dlt_trans h1 h2)
    (fun x y z hc => dlt_co hc) xs none r h d (Or.inr hd)
  unfold dle
  rw [show dlt d r = false from hb]
  rfl

theorem seriesMax_ge {xs : List (Option Date)} {r d : Date}
    (h : seriesMax xs = some r) (hd : some d ∈ xs) : dle d r = true := by
  have hb := @foldl_seriesStep_bound (fun b a => dlt a b)
    (fun x => dlt_irrefl x)
    (fun x y z h1 h2 => dlt_trans h2 h1)
    (fun x y z hc => (dlt_co hc).symm) xs none r h d (Or.inr hd)
  unfold dle
  rw [show dlt r d = false from hb]
  rfl

theorem pyMin_mem {x : Option Date} {xs : List (Option Date)} {r : Date}
    (h : pyMin (x :: xs) = some r) : x = some r ∨ some r ∈ xs :=
  foldl_pyStep_mem h

theorem pyMax_mem {x : Option Date} {xs : List (Option Date)} {r : Date}
    (h : pyMax (x :: xs) = some r) : x = some r ∨ some r ∈ xs :=
  foldl_pyStep_mem h

theorem pyMin_le {x : Option Date} {xs : List (Option Date)} {r d : Date}
    (h : pyMin (x :: xs) = some r) (hd : x = some d ∨ some d ∈ xs) :
    dle r d = true := by
  have hb := @foldl_pyStep_bound (fun b a => dlt b a)
    (fun x => dlt_irrefl x)
    (fun x y z h1 h2 => dlt_trans h1 h2)
    (fun x y z hc => dlt_co hc) xs x r h d hd
  unfold dle
  rw [show dlt d r = false from hb]
  rfl

theorem pyMax_ge {x : Option Date} {xs : List (Option Date)} {r d : Date}
    (h : pyMax (x :: xs) = some r) (hd : x = some d ∨ some d ∈ xs) :
    dle d r = true := by
  have hb := @foldl_pyStep_bound (fun b a => dlt a b)
    (fun x => dlt_irrefl x)
    (fun x y z h1 h2 => dlt_trans h2 h1)
    (fun x y z hc => (dlt_co hc).symm) xs x r h d hd
  unfold dle
  rw [show dlt r d = false from hb]
  rfl

/-! ## The observed-date pool of `build_dim_time` -/

/-- Every date that parses in any of the four date columns. -/
def observedDates (policies : List PolicyRow) (claims : List ClaimRow) :
    List Date :=
  (dateSeries policies claims).flatMap (fun s => s.filterMap id)

theorem mem_observedDates {policies : List PolicyRow} {claims : List ClaimRow}
    {s : List (Option Date)} {d : Date}
    (hs : s ∈ dateSeries policies claims) (hd : some d ∈ s) :
    d ∈ observedDates policies claims :=
  List.mem_flatMap.mpr ⟨s, hs, List.mem_filterMap.mpr ⟨some d, hd, rfl⟩⟩

theorem observed_cases {policies : List PolicyRow} {claims : List ClaimRow}
    {d : Date} (hd : d ∈ observedDates policies claims) :
    some d ∈ policies.map (fun p => p.effective_date) ∨
    some d ∈ policies.map (fun p => p.expiration_date) ∨
    some d ∈ claims.map (fun c => c.incident_date) ∨
    some d ∈ claims.map (fun c => c.report_date) := by
  obtain ⟨s, hs, hds⟩ := List.mem_flatMap.mp hd
  obtain ⟨x, hx, hxd⟩ := List.mem_filterMap.mp hds
  cases hxd
  unfold dateSeries at hs
  simp only [List.mem_cons, List.not_mem_nil, or_false] at hs
  rcases hs with rfl | rfl | rfl | rfl
  · exact Or.inl hx
  · exact Or.inr (Or.inl hx)
  · exact Or.inr (Or.inr (Or.inl hx))
  · exact Or.inr (Or.inr (Or.inr hx))

/-! ## The behaviour of `build_dim_time` when the effective-date column
has at least one parseable date -/

theorem build_dim_time_spec (policies : List PolicyRow) (claims : List ClaimRow)
    (Hv : ∀ d ∈ observedDates policies claims, d.valid)
    (Heff : ∃ p ∈ policies, p.effective_date.isSome) :
    ∃ lo hi, lo.valid ∧ hi.valid ∧
      lo ∈ observedDates policies claims ∧
      hi ∈ observedDates policies claims ∧
      (∀ d ∈ observedDates policies claims, dle lo d = true ∧ dle d hi = true) ∧
      build_dim_time policies claims =
        some ((date_range lo hi).map mkTimeRow) := by
  obtain ⟨p, hp, hps⟩ := Heff
  obtain ⟨d0, hd0⟩ := Option.isSome_iff_exists.mp hps
  have hs1mem : some d0 ∈ policies.map (fun q => q.effective_date) :=
    List.mem_map.mpr ⟨p, hp, hd0⟩
  obtain ⟨m1, hm1⟩ := seriesMin_isSome_of_mem hs1mem
  obtain ⟨M1, hM1⟩ := seriesMax_isSome_of_mem hs1mem
  have hminShape : pyMin ((dateSeries policies claims).map seriesMin) =
      List.foldl (pyStep (fun b a => dlt b a))
        (seriesMin (policies.map (fun q => q.effective_date)))
        [seriesMin (policies.map (fun q => q.expiration_date)),
         seriesMin (claims.map (fun c => c.incident_date)),
         seriesMin (claims.map (fun c => c.report_date))] := rfl
  have hmaxShape : pyMax ((dateSeries policies claims).map seriesMax) =
      List.foldl (pyStep (fun b a => dlt a b))
        (seriesMax (policies.map (fun q => q.effective_date)))
        [seriesMax (policies.map (fun q => q.expiration_date)),
         seriesMax (claims.map (fun c => c.incident_date)),
         seriesMax (claims.map (fun c => c.report_date))] := rfl
  obtain ⟨lo, hlo⟩ : ∃ lo,
      pyMin ((dateSeries policies claims).map seriesMin) = some lo := by
    rw [hminShape, hm1]
    exact foldl_pyStep_some
  obtain ⟨hi, hhi⟩ : ∃ hi,
      pyMax ((dateSeries policies claims).map seriesMax) = some hi := by
    rw [hmaxShape, hM1]
    exact foldl_pyStep_some
  have hlo_mem : lo ∈ observedDates policies claims := by
    rcases pyMin_mem hlo with hc | hc
    · exact mem_observedDates (by simp [dateSeries]) (seriesMin_mem hc)
    · simp only [List.map_cons, List.map_nil, List.mem_cons,
        List.not_mem_nil, or_false] at hc
      rcases hc with hc | hc | hc <;>
        exact mem_observedDates (by simp [dateSeries]) (seriesMin_mem hc.symm)
  have hhi_mem : hi ∈ observedDates policies claims := by
    rcases pyMax_mem hhi with hc | hc
    · exact mem_observedDates (by simp [dateSeries]) (seriesMax_mem hc)
    · simp only [List.map_cons, List.map_nil, List.mem_cons,
        List.not_mem_nil, or_false] at hc
      rcases hc with hc | hc | hc <;>
        exact mem_observedDates (by simp [dateSeries]) (seriesMax_mem hc.symm)
  have hbounds : ∀ d ∈ observedDates policies claims,
      dle lo d = true ∧ dle d hi = true := by
    intro d hd
    constructor
    · rcases observed_cases hd with hcase | hcase | hcase | hcase
      · obtain ⟨mi, hmi⟩ := seriesMin_isSome_of_mem hcase
        exact dle_trans (pyMin_le hlo (Or.inl hmi)) (seriesMin_le hmi hcase)
      · obtain ⟨mi, hmi⟩ := seriesMin_isSome_of_mem hcase
        refine dle_trans (pyMin_le hlo (Or.inr ?_)) (seriesMin_le hmi hcase)
        rw [← hmi]
        exact List.mem_cons_self _ _
      · obtain ⟨mi, hmi⟩ := seriesMin_isSome_of_mem hcase
        refine dle_trans (pyMin_le hlo (Or.inr ?_)) (seriesMin_le hmi hcase)
        rw [← hmi]
        exact List.mem_cons_of_mem _ (List.mem_cons_self _ _)
      · obtain ⟨mi, hmi⟩ := seriesMin_isSome_of_mem hcase
        refine dle_trans (pyMin_le hlo (Or.inr ?_)) (seriesMin_le hmi hcase)
        rw [← hmi]
        exact List.mem_cons_of_mem _
          (List.mem_cons_of_mem _ (List.mem_cons_self _ _))
    · rcases observed_cases hd with hcase | hcase | hcase | hcase
      · obtain ⟨mi, hmi⟩ := seriesMax_isSome_of_mem hcase
        exact dle_trans (seriesMax_ge hmi hcase) (pyMax_ge hhi (Or.inl hmi))
      · obtain ⟨mi, hmi⟩ := seriesMax_isSome_of_mem hcase
        refine dle_trans (seriesMax_ge hmi hcase) (pyMax_ge hhi (Or.inr ?_))
        rw [← hmi]
        exact List.mem_cons_self _ _
      · obtain ⟨mi, hmi⟩ := seriesMax_isSome_of_mem hcase
        refine dle_trans (seriesMax_ge hmi hcase) (pyMax_ge hhi (Or.inr ?_))
        rw [← hmi]
        exact List.mem_cons_of_mem _ (List.mem_cons_self _ _)
      · obtain ⟨mi, hmi⟩ := seriesMax_isSome_of_mem hcase
        refine dle_trans (seriesMax_ge hmi hcase) (pyMax_ge hhi (Or.inr ?_))
        rw [← hmi]
        exact List.mem_cons_of_mem _
          (List.mem_cons_of_mem _ (List.mem_cons_self _ _))
  refine ⟨lo, hi, Hv lo hlo_mem, Hv hi hhi_mem, hlo_mem, hhi_mem, hbounds, ?_⟩
  unfold build_dim_time
  rw [hlo, hhi]

/-! ## Loader transaction lemmas -/

theorem execStepsFrom_ok_committed {staged : Staged} {failAt : Option Nat}
    {steps : List LoadStep} {i : Nat} {c c2 : Conn}
    (h : execStepsFrom staged failAt i steps c = .ok c2) :
    c2.committed = c.committed := by
  induction steps generalizing i c with
  | nil =>
    cases h
    rfl
  | cons s rest ih =>
    rw [execStepsFrom] at h
    by_cases hif : failAt = some i
    · rw [if_pos hif] at h
      cases h
    · rw [if_neg hif] at h
      show c2.committed = (c.execStep staged s).committed
      exact ih h

theorem execStepsFrom_error_committed {staged : Staged} {failAt : Option Nat}
    {steps : List LoadStep} {i : Nat} {c c2 : Conn} {e : String}
    (h : execStepsFrom staged failAt i steps c = .error (e, c2)) :
    c2.committed = c.committed := by
  induction steps generalizing i c with
  | nil => cases h
  | cons s rest ih =>
    rw [execStepsFrom] at h
    by_cases hif : failAt = some i
    · rw [if_pos hif] at h
      simp only [Except.error.injEq, Prod.mk.injEq] at h
      rw [← h.2]
    · rw [if_neg hif] at h
      show c2.committed = (c.execStep staged s).committed
      exact ih h

theorem execStepsFrom_fails {staged : Staged} (steps : List LoadStep)
    (i k : Nat) (c : Conn) (h1 : i ≤ k) (h2 : k < i + steps.length) :
    ∃ e c2, execStepsFrom staged (some k) i steps c = .error (e, c2) := by
  induction steps generalizing i c with
  | nil =>
    exfalso
    simp at h2
    omega
  | cons s rest ih =>
    rw [execStepsFrom]
    by_cases hif : (some k : Option Nat) = some i
    · rw [if_pos hif]
      exact ⟨_, _, rfl⟩
    · rw [if_neg hif]
      have hne : k ≠ i := fun hk => hif (by rw [hk])
      simp only [List.length_cons] at h2
      exact ih (i + 1) (c.execStep staged s) (by omega) (by omega)

/-- C1: if any statement of the bulk-load transaction (a truncate or a
`COPY`) raises, the loader rolls the transaction back and re-raises a
fatal error, and the committed store — hence every one of the nine
tables' row counts — is exactly its pre-run state. -/
theorem c1_load_failure_rolls_back (store : Store) (staged : Staged)
    (k : Nat) (hk : k < loadSteps.length) :
    (run_loader store staged (some k)).1.isSome = true ∧
    (run_loader store staged (some k)).2 = store ∧
    (run_loader store staged (some k)).2.rowCounts = store.rowCounts := by
  obtain ⟨e, c2, hexec⟩ := execStepsFrom_fails loadSteps 0 k (Conn.mk store store)
    (Nat.zero_le k) (by simpa using hk)
  have hcomm : c2.committed = store := execStepsFrom_error_committed hexec
  have hres : run_loader store staged (some k) =
      (some ("Module 09 v1 FAILED: " ++ e), c2.rollback.committed) := by
    unfold run_loader
    rw [hexec]
  rw [hres]
  have hroll : c2.rollback.committed = store := hcomm
  exact ⟨rfl, hroll, by rw [hroll]⟩

/-- C1 witness: a concrete failing run (step 3, the `dim_state` copy)
over a store holding one row in each fact table leaves the store intact
and reports a fatal error. -/
theorem c1_load_failure_rolls_back_witness :
    (3 < loadSteps.length) ∧
    ((run_loader (Store.mk ["a"] ["b"] ["c"] ["d"] [] [] [] [] [])
        (Staged.mk [] [] [] [] [] [] [] [] ["t"]) (some 3)).1.isSome = true ∧
      (run_loader (Store.mk ["a"] ["b"] ["c"] ["d"] [] [] [] [] [])
        (Staged.mk [] [] [] [] [] [] [] [] ["t"]) (some 3)).2 =
        Store.mk ["a"] ["b"] ["c"] ["d"] [] [] [] [] []) :=
  ⟨by decide,
    (c1_load_failure_rolls_back (Store.mk ["a"] ["b"] ["c"] ["d"] [] [] [] [] [])
      (Staged.mk [] [] [] [] [] [] [] [] ["t"]) 3 (by decide)).1,
    (c1_load_failure_rolls_back (Store.mk ["a"] ["b"] ["c"] ["d"] [] [] [] [] [])
      (Staged.mk [] [] [] [] [] [] [] [] ["t"]) 3 (by decide)).2.1⟩

/-- C4 counterexample: the loader's `COPY` order is not the exact reverse
of its truncation order — the reverse would end with `fact_taxes,
fact_expenses, fact_claims`, but the loader copies `fact_claims,
fact_expenses, fact_taxes`. -/
theorem c4_load_order_not_reverse : loadOrder ≠ truncateOrder.reverse := by
  decide

/-- C4 (amended): the loader truncates the nine tables in the fixed
order fact_claims, fact_expenses, fact_taxes, fact_policies,
dim_policies, dim_products, dim_clients, dim_state, dim_time, and loads
all five dimensions before any fact; the dimensions are loaded in
exactly the reverse of their truncation order, while the facts are
loaded in the order fact_policies, fact_claims, fact_expenses,
fact_taxes (not the reverse of the fact truncation order). -/
theorem c4_truncate_and_load_order :
    truncateOrder = [TableName.fact_claims, TableName.fact_expenses,
      TableName.fact_taxes, TableName.fact_policies, TableName.dim_policies,
      TableName.dim_products, TableName.dim_clients, TableName.dim_state,
      TableName.dim_time] ∧
    loadOrder = [TableName.dim_time, TableName.dim_state,
      TableName.dim_clients, TableName.dim_products, TableName.dim_policies,
      TableName.fact_policies, TableName.fact_claims, TableName.fact_expenses,
      TableName.fact_taxes] ∧
    loadOrder.take 5 = (truncateOrder.drop 4).reverse ∧
    (loadOrder.take 5).all TableName.isDim = true ∧
    (loadOrder.drop 5).all (fun t => !t.isDim) = true := by
  decide

/-! ## Deduplication and sorting lemmas -/

theorem mem_of_mem_dropDupAux {α : Type} [DecidableEq α]
    {seen l : List α} {x : α} (h : x ∈ dropDupAux seen l) : x ∈ l := by
  induction l generalizing seen with
  | nil => cases h
  | cons y ys ih =>
    rw [dropDupAux] at h
    split_ifs at h with hy
    · exact List.mem_cons_of_mem _ (ih h)
    · rcases List.mem_cons.mp h with rfl | h2
      · exact List.mem_cons_self _ _
      · exact List.mem_cons_of_mem _ (ih h2)

theorem not_mem_seen_of_mem_dropDupAux {α : Type} [DecidableEq α]
    {seen l : List α} {x : α} (h : x ∈ dropDupAux seen l) : x ∉ seen := by
  induction l generalizing seen with
  | nil => cases h
  | cons y ys ih =>
    rw [dropDupAux] at h
    split_ifs at h with hy
    · exact ih h
    · rcases List.mem_cons.mp h with rfl | h2
      · exact hy
      · intro hx
        exact ih h2 (List.mem_cons_of_mem _ hx)

theorem nodup_dropDupAux {α : Type} [DecidableEq α] {seen l : List α} :
    (dropDupAux seen l).Nodup := by
  induction l generalizing seen with
  | nil => exact List.nodup_nil
  | cons y ys ih =>
    rw [dropDupAux]
    split_ifs with hy
    · exact ih
    · rw [List.nodup_cons]
      exact ⟨fun hmem =>
        not_mem_seen_of_mem_dropDupAux hmem (List.mem_cons_self _ _), ih⟩

theorem mem_dropDupAux_of_mem {α : Type} [DecidableEq α]
    {seen l : List α} {x : α} (hx : x ∈ l) (hs : x ∉ seen) :
    x ∈ dropDupAux seen l := by
  induction l generalizing seen with
  | nil => cases hx
  | cons y ys ih =>
    rw [dropDupAux]
    by_cases hxy : x = y
    · subst hxy
      rw [if_neg hs]
      exact List.mem_cons_self _ _
    · have hx2 : x ∈ ys := (List.mem_cons.mp hx).resolve_left hxy
      split_ifs with hy
      · exact ih hx2 hs
      · refine List.mem_cons_of_mem _ (ih hx2 ?_)
        intro hmem
        rcases List.mem_cons.mp hmem with h | h
        · exact hxy h
        · exact hs h

theorem nodup_dropDuplicates {α : Type} [DecidableEq α] {l : List α} :
    (dropDuplicates l).Nodup := nodup_dropDupAux

theorem mem_dropDuplicates_iff {α : Type} [DecidableEq α] {l : List α}
    {x : α} : x ∈ dropDuplicates l ↔ x ∈ l :=
  ⟨mem_of_mem_dropDupAux, fun h => mem_dropDupAux_of_mem h (List.not_mem_nil x)⟩

theorem perm_insertByStateCode (x : StateRow) (l : List StateRow) :
    (insertByStateCode x l).Perm (x :: l) := by
  induction l with
  | nil => exact List.Perm.refl _
  | cons y ys ih =>
    rw [insertByStateCode]
    split_ifs with h
    · exact List.Perm.refl _
    · exact (List.Perm.cons y ih).trans (List.Perm.swap x y ys)

theorem perm_sortByStateCode (l : List StateRow) :
    (sortByStateCode l).Perm l := by
  induction l with
  | nil => exact List.Perm.refl _
  | cons x xs ih =>
    exact (perm_insertByStateCode x _).trans (List.Perm.cons x ih)

/-! ## C7: uniqueness of state codes in the state dimension -/

/-- C7 counterexample: `build_dim_state` deduplicates full
`(state_code, region_code, market_tier)` triples, so two clients sharing
a state code but differing in region produce two rows with the same
`state_code` — the claimed invariant fails on this input. -/
theorem c7_state_code_not_unique :
    ¬ ((build_dim_state
      [ClientRow.mk 1 2020 30 "F" "RETAIL" "CA" "WEST" "T1" 3,
       ClientRow.mk 2 2021 40 "M" "RETAIL" "CA" "EAST" "T2" 3]).map
        (fun r => r.state_code)).Nodup := by decide

/-- C7 (amended): for every clients input in which the state code
functionally determines the region code and market tier, the state
dimension has pairwise-distinct `state_code` values. -/
theorem c7_state_code_unique (clients : List ClientRow)
    (huniq : ∀ c1 ∈ clients, ∀ c2 ∈ clients,
      c1.state_code = c2.state_code →
      c1.region_code = c2.region_code ∧ c1.market_tier = c2.market_tier) :
    ((build_dim_state clients).map (fun r => r.state_code)).Nodup := by
  unfold build_dim_state
  have hperm := perm_sortByStateCode
    (dropDuplicates (clients.map
      (fun c => StateRow.mk c.state_code c.region_code c.market_tier)))
  have hnd2 : (sortByStateCode (dropDuplicates (clients.map
      (fun c => StateRow.mk c.state_code c.region_code c.market_tier)))).Nodup :=
    hperm.symm.nodup nodup_dropDuplicates
  refine List.Nodup.map_on ?_ hnd2
  intro r1 h1 r2 h2 heq
  have hm1 := List.mem_map.mp
    (mem_dropDuplicates_iff.mp (hperm.subset h1))
  have hm2 := List.mem_map.mp
    (mem_dropDuplicates_iff.mp (hperm.subset h2))
  obtain ⟨c1, hc1, rfl⟩ := hm1
  obtain ⟨c2, hc2, rfl⟩ := hm2
  have hcc := huniq c1 hc1 c2 hc2 heq
  rw [StateRow.mk.injEq]
  exact ⟨heq, hcc.1, hcc.2⟩

/-- C7 witness: two clients in distinct states satisfy the functional
dependency, and the resulting state dimension has distinct state codes. -/
theorem c7_state_code_unique_witness :
    (∀ c1 ∈ [ClientRow.mk 1 2020 30 "F" "RETAIL" "CA" "WEST" "T1" 3,
        ClientRow.mk 2 2021 40 "M" "CORP" "NY" "EAST" "T2" 3],
      ∀ c2 ∈ [ClientRow.mk 1 2020 30 "F" "RETAIL" "CA" "WEST" "T1" 3,
        ClientRow.mk 2 2021 40 "M" "CORP" "NY" "EAST" "T2" 3],
      c1.state_code = c2.state_code →
      c1.region_code = c2.region_code ∧ c1.market_tier = c2.market_tier) ∧
    ((build_dim_state
      [ClientRow.mk 1 2020 30 "F" "RETAIL" "CA" "WEST" "T1" 3,
       ClientRow.mk 2 2021 40 "M" "CORP" "NY" "EAST" "T2" 3]).map
        (fun r => r.state_code)).Nodup :=
  ⟨by decide, c7_state_code_unique _ (by decide)⟩

/-! ## Product-key derivation lemmas -/

/-- A string on which the key normalization is the identity: no spaces,
no underscores, and already upper-case. -/
def keySafe (s : String) : Prop :=
  ∀ c ∈ s.data, c ≠ ' ' ∧ c ≠ '_' ∧ Char.toUpper c = c

instance (s : String) : Decidable (keySafe s) := by
  unfold keySafe
  exact inferInstance

theorem map_id_of_forall {α : Type} {f : α → α} {l : List α}
    (h : ∀ c ∈ l, f c = c) : l.map f = l := by
  induction l with
  | nil => rfl
  | cons x xs ih =>
    rw [List.map_cons, h x (List.mem_cons_self _ _),
      ih (fun c hc => h c (List.mem_cons_of_mem _ hc))]

theorem deriveProductKey_eq {l p : String} (hl : keySafe l) (hp : keySafe p) :
    deriveProductKey l p = String.mk (l.data ++ '_' :: p.data) := by
  unfold deriveProductKey upperString spaceToUnderscore
  dsimp only
  congr 1
  rw [String.data_append, String.data_append,
    show String.data "_" = ['_'] from rfl, List.map_append, List.map_append,
    List.map_append, List.map_append]
  rw [map_id_of_forall (fun c hc => (hl c hc).2.2),
    map_id_of_forall (fun c hc => (hp c hc).2.2),
    show (['_'].map Char.toUpper) = ['_'] from by decide]
  rw [map_id_of_forall (fun c hc => if_neg (hl c hc).1),
    map_id_of_forall (fun c hc => if_neg (hp c hc).1),
    show (['_'].map (fun c => if c = ' ' then '_' else c)) = ['_'] from by decide]
  simp

theorem append_underscore_inj {a b c d : List Char}
    (ha : '_' ∉ a) (hc : '_' ∉ c)
    (h : a ++ '_' :: b = c ++ '_' :: d) : a = c ∧ b = d := by
  induction a generalizing c with
  | nil =>
    cases c with
    | nil => simpa using h
    | cons y cs =>
      exfalso
      simp only [List.nil_append, List.cons_append, List.cons.injEq] at h
      refine hc ?_
      rw [← h.1]
      exact List.mem_cons_self _ _
  | cons x as ih =>
    cases c with
    | nil =>
      exfalso
      simp only [List.cons_append, List.nil_append, List.cons.injEq] at h
      refine ha ?_
      rw [h.1]
      exact List.mem_cons_self _ _
    | cons y cs =>
      simp only [List.cons_append, List.cons.injEq] at h
      obtain ⟨hxy, h2⟩ := h
      have hrec := ih (fun hm => ha (List.mem_cons_of_mem _ hm))
        (fun hm => hc (List.mem_cons_of_mem _ hm)) h2
      exact ⟨by rw [hxy, hrec.1], hrec.2⟩

/-! ## C2: the product key across the builders -/

/-- C2 counterexample: the derivation is not injective on all distinct
pairs — `("a b", "c")` and `("a", "b c")` are distinct
(line_of_business, plan_name) pairs yet both derive `"A_B_C"`. -/
theorem c2_product_key_collision :
    deriveProductKey "a b" "c" = deriveProductKey "a" "b c" ∧
    ("a b", "c") ≠ ("a", "b c") := by decide

/-- C2 (amended): the product-key derivation is one pure function applied
identically in `build_dim_products`, `build_fact_policies` and
`build_fact_claims` (so equal pairs always yield the same key in all
three builders), and it is injective on pairs whose components contain
no space, no underscore, and are fixed by upper-casing. -/
theorem c2_product_key_deterministic_and_injective :
    (∀ policies : List PolicyRow, ∀ r ∈ build_dim_products policies,
      r.product_key = deriveProductKey r.line_of_business r.plan_name) ∧
    (∀ (p : PolicyRow) (eff exp : Date),
      (factPolicyRow p eff exp).product_key =
        deriveProductKey p.line_of_business p.plan_name) ∧
    (∀ (c : ClaimRow) (j : PolicyJoinCols) (inc rep : Date),
      (factClaimRow c (some j) inc rep).product_key =
        some (deriveProductKey j.line_of_business j.plan_name)) ∧
    (∀ l1 p1 l2 p2 : String,
      keySafe l1 → keySafe p1 → keySafe l2 → keySafe p2 →
      deriveProductKey l1 p1 = deriveProductKey l2 p2 →
      l1 = l2 ∧ p1 = p2) := by
  refine ⟨?_, fun p eff exp => rfl, fun c j inc rep => rfl, ?_⟩
  · intro policies r hr
    obtain ⟨q, hq, rfl⟩ := List.mem_map.mp hr
    rfl
  · intro l1 p1 l2 p2 h1 h2 h3 h4 heq
    rw [deriveProductKey_eq h1 h2, deriveProductKey_eq h3 h4] at heq
    have hdata : l1.data ++ '_' :: p1.data = l2.data ++ '_' :: p2.data :=
      congrArg String.data heq
    have hsplit := append_underscore_inj
      (fun hm => (h1 '_' hm).2.1 rfl) (fun hm => (h3 '_' hm).2.1 rfl) hdata
    exact ⟨congrArg String.mk hsplit.1, congrArg String.mk hsplit.2⟩

/-- C2 witness: concrete key-safe inputs for the injectivity direction
and a concrete product row for the determinism direction. -/
theorem c2_product_key_witness :
    keySafe "AUTO" ∧ keySafe "BASIC" ∧ ("AUTO" = "AUTO" ∧ "BASIC" = "BASIC") :=
  ⟨by decide, by decide,
    c2_product_key_deterministic_and_injective.2.2.2 "AUTO" "BASIC" "AUTO"
      "BASIC" (by decide) (by decide) (by decide) (by decide) rfl⟩

/-! ## Set-difference lemmas -/

theorem setDiff_eq_nil_of_subset {α : Type} [DecidableEq α] {a b : List α}
    (h : ∀ x ∈ a, x ∈ b) : setDiff a b = [] := by
  unfold setDiff
  have hf : a.filter (fun x => x ∉ b) = [] := by
    rw [List.filter_eq_nil_iff]
    intro x hx
    simp [h x hx]
  rw [hf]
  rfl

theorem mem_setDiff_of {α : Type} [DecidableEq α] {a b : List α} {x : α}
    (hx : x ∈ a) (hnb : x ∉ b) : x ∈ setDiff a b := by
  unfold setDiff dropDuplicates
  refine mem_dropDupAux_of_mem ?_ (List.not_mem_nil x)
  rw [List.mem_filter]
  exact ⟨hx, by simpa using hnb⟩

theorem setDiff_ne_nil_of {α : Type} [DecidableEq α] {a b : List α} {x : α}
    (hx : x ∈ a) (hnb : x ∉ b) : setDiff a b ≠ [] :=
  List.ne_nil_of_mem (mem_setDiff_of hx hnb)

/-! ## Inversion lemmas for the validator checks -/

theorem check_fact_policies_ok_inv {fp : List FactPolicyRow}
    {t : List TimeRow} {dp : List PolicyDimRow} {pr : List ProductRow}
    {ds : List StateRow} {w : List String}
    (h : check_fact_policies fp t dp pr ds = .ok w) :
    setDiff (fp.map (fun r => r.policy_id)) (dp.map (fun q => q.policy_id)) = [] ∧
    setDiff (fp.map (fun r => r.product_key)) (pr.map (fun q => q.product_key)) = [] ∧
    setDiff (fp.map (fun r => r.state_code)) (ds.map (fun q => q.state_code)) = [] ∧
    setDiff (fp.map (fun r => r.effective_date_key)) (t.map (fun q => q.date_key)) = [] := by
  unfold check_fact_policies at h
  split_ifs at h with h1 h2 h3 h4
  exact ⟨not_not.mp h1, not_not.mp h2, not_not.mp h3, not_not.mp h4⟩

theorem check_fact_claims_ok_inv {fc : List FactClaimRow}
    {dp : List PolicyDimRow} {pr : List ProductRow} {ds : List StateRow}
    {t : List TimeRow} {w : List String}
    (h : check_fact_claims fc dp pr ds t = .ok w) :
    setDiff (fc.map (fun r => r.policy_id)) (dp.map (fun q => q.policy_id)) = [] ∧
    setDiff (fc.map (fun r => r.product_key)) (pr.map (fun q => some q.product_key)) = [] ∧
    setDiff (fc.map (fun r => r.state_code)) (ds.map (fun q => some q.state_code)) = [] ∧
    setDiff (fc.map (fun r => r.incident_date_key)) (t.map (fun q => q.date_key)) = [] ∧
    setDiff (fc.map (fun r => r.report_date_key)) (t.map (fun q => q.date_key)) = [] := by
  unfold check_fact_claims at h
  split_ifs at h with h1 h2 h3 h4 h5
  exact ⟨not_not.mp h1, not_not.mp h2, not_not.mp h3,
    not_not.mp h4, not_not.mp h5⟩

theorem check_fact_expenses_ok_inv {fe : List FactExpenseRow}
    {t : List TimeRow} {ds : List StateRow}
    (h : check_fact_expenses fe t ds = .ok ()) :
    setDiff (fe.map (fun r => r.date_key)) (t.map (fun q => q.date_key)) = [] ∧
    setDiff (fe.map (fun r => r.state_code)) (ds.map (fun q => q.state_code)) = [] ∧
    fe.any (fun r => decide (r.expense_amount < 0)) = false := by
  unfold check_fact_expenses at h
  split_ifs at h with h1 h2 h3
  exact ⟨not_not.mp h1, not_not.mp h2, Bool.eq_false_iff.mpr h3⟩

theorem check_fact_taxes_ok_inv {ft : List FactTaxRow}
    {dp : List PolicyDimRow} {ds : List StateRow}
    (h : check_fact_taxes ft dp ds = .ok ()) :
    setDiff (ft.map (fun r => r.policy_id)) (dp.map (fun q => q.policy_id)) = [] ∧
    setDiff (ft.map (fun r => r.state_code)) (ds.map (fun q => q.state_code)) = [] ∧
    ft.any (fun r => decide (r.tax_amount < 0)) = false := by
  unfold check_fact_taxes at h
  split_ifs at h with h1 h2 h3
  exact ⟨not_not.mp h1, not_not.mp h2, Bool.eq_false_iff.mpr h3⟩

theorem check_fact_expenses_fatal_of_neg {fe : List FactExpenseRow}
    {t : List TimeRow} {ds : List StateRow}
    (h : ∃ r ∈ fe, r.expense_amount < 0) :
    ∃ e, check_fact_expenses fe t ds = .error e := by
  obtain ⟨r, hr, hneg⟩ := h
  cases hres : check_fact_expenses fe t ds with
  | error e => exact ⟨e, rfl⟩
  | ok u =>
    exfalso
    cases u
    have hinv := (check_fact_expenses_ok_inv hres).2.2
    have : fe.any (fun r => decide (r.expense_amount < 0)) = true :=
      List.any_eq_true.mpr ⟨r, hr, by simpa using hneg⟩
    rw [hinv] at this
    cases this

theorem check_fact_taxes_fatal_of_neg {ft : List FactTaxRow}
    {dp : List PolicyDimRow} {ds : List StateRow}
    (h : ∃ r ∈ ft, r.tax_amount < 0) :
    ∃ e, check_fact_taxes ft dp ds = .error e := by
  obtain ⟨r, hr, hneg⟩ := h
  cases hres : check_fact_taxes ft dp ds with
  | error e => exact ⟨e, rfl⟩
  | ok u =>
    exfalso
    cases u
    have hinv := (check_fact_taxes_ok_inv hres).2.2
    have : ft.any (fun r => decide (r.tax_amount < 0)) = true :=
      List.any_eq_true.mpr ⟨r, hr, by simpa using hneg⟩
    rw [hinv] at this
    cases this

theorem check_fact_policies_pass {fp : List FactPolicyRow}
    {t : List TimeRow} {dp : List PolicyDimRow} {pr : List ProductRow}
    {ds : List StateRow}
    (hall : ∀ r ∈ fp, r.policy_id ∈ dp.map (fun q => q.policy_id) ∧
      r.product_key ∈ pr.map (fun q => q.product_key) ∧
      r.state_code ∈ ds.map (fun q => q.state_code) ∧
      r.effective_date_key ∈ t.map (fun q => q.date_key)) :
    check_fact_policies fp t dp pr ds = .ok
      (if setDiff (fp.map (fun r => r.expiration_date_key))
          (t.map (fun q => q.date_key)) ≠ [] then
        [toString (setDiff (fp.map (fun r => r.expiration_date_key))
          (t.map (fun q => q.date_key))).length ++
          " expiration_date_key outside dim_time range (allowed)"]
      else []) := by
  have e1 : setDiff (fp.map (fun r => r.policy_id))
      (dp.map (fun q => q.policy_id)) = [] :=
    setDiff_eq_nil_of_subset (fun x hx => by
      obtain ⟨r, hr, rfl⟩ := List.mem_map.mp hx
      exact (hall r hr).1)
  have e2 : setDiff (fp.map (fun r => r.product_key))
      (pr.map (fun q => q.product_key)) = [] :=
    setDiff_eq_nil_of_subset (fun x hx => by
      obtain ⟨r, hr, rfl⟩ := List.mem_map.mp hx
      exact (hall r hr).2.1)
  have e3 : setDiff (fp.map (fun r => r.state_code))
      (ds.map (fun q => q.state_code)) = [] :=
    setDiff_eq_nil_of_subset (fun x hx => by
      obtain ⟨r, hr, rfl⟩ := List.mem_map.mp hx
      exact (hall r hr).2.2.1)
  have e4 : setDiff (fp.map (fun r => r.effective_date_key))
      (t.map (fun q => q.date_key)) = [] :=
    setDiff_eq_nil_of_subset (fun x hx => by
      obtain ⟨r, hr, rfl⟩ := List.mem_map.mp hx
      exact (hall r hr).2.2.2)
  unfold check_fact_policies
  rw [if_neg (fun hc => hc e1), if_neg (fun hc => hc e2),
    if_neg (fun hc => hc e3), if_neg (fun hc => hc e4)]

theorem check_fact_claims_pass {fc : List FactClaimRow}
    {dp : List PolicyDimRow} {pr : List ProductRow} {ds : List StateRow}
    {t : List TimeRow}
    (hall : ∀ r ∈ fc, r.policy_id ∈ dp.map (fun q => q.policy_id) ∧
      r.product_key ∈ pr.map (fun q => some q.product_key) ∧
      r.state_code ∈ ds.map (fun q => some q.state_code) ∧
      r.incident_date_key ∈ t.map (fun q => q.date_key) ∧
      r.report_date_key ∈ t.map (fun q => q.date_key)) :
    check_fact_claims fc dp pr ds t = .ok
      (if setDiff (fc.filterMap (fun r => r.settlement_date_key))
          (t.map (fun q => q.date_key)) ≠ [] then
        [toString (setDiff (fc.filterMap (fun r => r.settlement_date_key))
          (t.map (fun q => q.date_key))).length ++
          " settlement_date_key outside dim_time (allowed)"]
      else []) := by
  have e1 : setDiff (fc.map (fun r => r.policy_id))
      (dp.map (fun q => q.policy_id)) = [] :=
    setDiff_eq_nil_of_subset (fun x hx => by
      obtain ⟨r, hr, rfl⟩ := List.mem_map.mp hx
      exact (hall r hr).1)
  have e2 : setDiff (fc.map (fun r => r.product_key))
      (pr.map (fun q => some q.product_key)) = [] :=
    setDiff_eq_nil_of_subset (fun x hx => by
      obtain ⟨r, hr, rfl⟩ := List.mem_map.mp hx
      exact (hall r hr).2.1)
  have e3 : setDiff (fc.map (fun r => r.state_code))
      (ds.map (fun q => some q.state_code)) = [] :=
    setDiff_eq_nil_of_subset (fun x hx => by
      obtain ⟨r, hr, rfl⟩ := List.mem_map.mp hx
      exact (hall r hr).2.2.1)
  have e4 : setDiff (fc.map (fun r => r.incident_date_key))
      (t.map (fun q => q.date_key)) = [] :=
    setDiff_eq_nil_of_subset (fun x hx => by
      obtain ⟨r, hr, rfl⟩ := List.mem_map.mp hx
      exact (hall r hr).2.2.2.1)
  have e5 : setDiff (fc.map (fun r => r.report_date_key))
      (t.map (fun q => q.date_key)) = [] :=
    setDiff_eq_nil_of_subset (fun x hx => by
      obtain ⟨r, hr, rfl⟩ := List.mem_map.mp hx
      exact (hall r hr).2.2.2.2)
  unfold check_fact_claims
  rw [if_neg (fun hc => hc e1), if_neg (fun hc => hc e2),
    if_neg (fun hc => hc e3), if_neg (fun hc => hc e4),
    if_neg (fun hc => hc e5)]

theorem except_bind_ok {α β : Type} {m : Except String α}
    {f : α → Except String β} {u : β}
    (h : (m >>= f) = Except.ok u) :
    ∃ a, m = Except.ok a ∧ f a = Except.ok u := by
  cases m with
  | error e =>
    exfalso
    have hred : (Except.error e >>= f) = (Except.error e : Except String β) := rfl
    rw [hred] at h
    exact Except.noConfusion h
  | ok a =>
    refine ⟨a, rfl, ?_⟩
    have hred : (Except.ok a >>= f) = f a := rfl
    rw [← hred]
    exact h

theorem run_all_checks_fatal_of_neg
    (dim_time : List TimeRow) (dim_state : List StateRow)
    (dim_clients : List ClientRow) (dim_products : List ProductRow)
    (dim_policies : List PolicyDimRow) (fact_policies : List FactPolicyRow)
    (fact_claims : List FactClaimRow) (fact_expenses : List FactExpenseRow)
    (fact_taxes : List FactTaxRow)
    (hneg : (∃ r ∈ fact_expenses, r.expense_amount < 0) ∨
      (∃ r ∈ fact_taxes, r.tax_amount < 0)) :
    ∃ e, run_all_checks dim_time dim_state dim_clients dim_products
      dim_policies fact_policies fact_claims fact_expenses fact_taxes =
      .error e := by
  cases hrun : run_all_checks dim_time dim_state dim_clients dim_products
      dim_policies fact_policies fact_claims fact_expenses fact_taxes with
  | error e => exact ⟨e, rfl⟩
  | ok u =>
    exfalso
    unfold run_all_checks at hrun
    obtain ⟨_, _, hrun⟩ := except_bind_ok hrun
    obtain ⟨_, _, hrun⟩ := except_bind_ok hrun
    obtain ⟨_, _, hrun⟩ := except_bind_ok hrun
    obtain ⟨_, _, hrun⟩ := except_bind_ok hrun
    obtain ⟨_, _, hrun⟩ := except_bind_ok hrun
    obtain ⟨_, _, hrun⟩ := except_bind_ok hrun
    obtain ⟨_, _, hrun⟩ := except_bind_ok hrun
    obtain ⟨_, _, hrun⟩ := except_bind_ok hrun
    obtain ⟨_, _, hrun⟩ := except_bind_ok hrun
    obtain ⟨_, _, hrun⟩ := except_bind_ok hrun
    obtain ⟨_, _, hrun⟩ := except_bind_ok hrun
    obtain ⟨_, _, hrun⟩ := except_bind_ok hrun
    obtain ⟨_, _, hrun⟩ := except_bind_ok hrun
    obtain ⟨_, _, hrun⟩ := except_bind_ok hrun
    obtain ⟨_, _, hrun⟩ := except_bind_ok hrun
    obtain ⟨_, _, hrun⟩ := except_bind_ok hrun
    obtain ⟨_, hexp, hrun⟩ := except_bind_ok hrun
    obtain ⟨_, htax, _⟩ := except_bind_ok hrun
    rcases hneg with hneg | hneg
    · obtain ⟨e, he⟩ := check_fact_expenses_fatal_of_neg hneg
      rw [he] at hexp
      exact Except.noConfusion hexp
    · obtain ⟨e, he⟩ := check_fact_taxes_fatal_of_neg hneg
      rw [he] at htax
      exact Except.noConfusion htax

/-! ## C5: the two-tier foreign-key policy -/

/-- C5: primary foreign keys (fact `policy_id`, `product_key`,
`state_code`, `fact_policies.effective_date_key`,
`fact_claims.incident_date_key` and `report_date_key`,
`fact_expenses.date_key`) are fatal when unresolved, whereas an
unresolved `fact_policies.expiration_date_key` or unresolved non-null
`fact_claims.settlement_date_key` only produces a warning carrying the
count of distinct unresolved references and never fails the check. -/
theorem c5_two_tier_fk_policy :
    ∀ (fp : List FactPolicyRow) (fc : List FactClaimRow)
      (fe : List FactExpenseRow) (t : List TimeRow)
      (dp : List PolicyDimRow) (pr : List ProductRow) (ds : List StateRow),
    ((∃ r ∈ fp, r.policy_id ∉ dp.map (fun q => q.policy_id)) →
      ∃ e, check_fact_policies fp t dp pr ds = .error e) ∧
    ((∃ r ∈ fp, r.product_key ∉ pr.map (fun q => q.product_key)) →
      ∃ e, check_fact_policies fp t dp pr ds = .error e) ∧
    ((∃ r ∈ fp, r.state_code ∉ ds.map (fun q => q.state_code)) →
      ∃ e, check_fact_policies fp t dp pr ds = .error e) ∧
    ((∃ r ∈ fp, r.effective_date_key ∉ t.map (fun q => q.date_key)) →
      ∃ e, check_fact_policies fp t dp pr ds = .error e) ∧
    ((∀ r ∈ fp, r.policy_id ∈ dp.map (fun q => q.policy_id) ∧
        r.product_key ∈ pr.map (fun q => q.product_key) ∧
        r.state_code ∈ ds.map (fun q => q.state_code) ∧
        r.effective_date_key ∈ t.map (fun q => q.date_key)) →
      check_fact_policies fp t dp pr ds = .ok
        (if setDiff (fp.map (fun r => r.expiration_date_key))
            (t.map (fun q => q.date_key)) ≠ [] then
          [toString (setDiff (fp.map (fun r => r.expiration_date_key))
            (t.map (fun q => q.date_key))).length ++
            " expiration_date_key outside dim_time range (allowed)"]
        else [])) ∧
    ((∃ r ∈ fc, r.policy_id ∉ dp.map (fun q => q.policy_id)) →
      ∃ e, check_fact_claims fc dp pr ds t = .error e) ∧
    ((∃ r ∈ fc, r.product_key ∉ pr.map (fun q => some q.product_key)) →
      ∃ e, check_fact_claims fc dp pr ds t = .error e) ∧
    ((∃ r ∈ fc, r.state_code ∉ ds.map (fun q => some q.state_code)) →
      ∃ e, check_fact_claims fc dp pr ds t = .error e) ∧
    ((∃ r ∈ fc, r.incident_date_key ∉ t.map (fun q => q.date_key)) →
      ∃ e, check_fact_claims fc dp pr ds t = .error e) ∧
    ((∃ r ∈ fc, r.report_date_key ∉ t.map (fun q => q.date_key)) →
      ∃ e, check_fact_claims fc dp pr ds t = .error e) ∧
    ((∀ r ∈ fc, r.policy_id ∈ dp.map (fun q => q.policy_id) ∧
        r.product_key ∈ pr.map (fun q => some q.product_key) ∧
        r.state_code ∈ ds.map (fun q => some q.state_code) ∧
        r.incident_date_key ∈ t.map (fun q => q.date_key) ∧
        r.report_date_key ∈ t.map (fun q => q.date_key)) →
      check_fact_claims fc dp pr ds t = .ok
        (if setDiff (fc.filterMap (fun r => r.settlement_date_key))
            (t.map (fun q => q.date_key)) ≠ [] then
          [toString (setDiff (fc.filterMap (fun r => r.settlement_date_key))
            (t.map (fun q => q.date_key))).length ++
            " settlement_date_key outside dim_time (allowed)"]
        else [])) ∧
    ((∃ r ∈ fe, r.date_key ∉ t.map (fun q => q.date_key)) →
      ∃ e, check_fact_expenses fe t ds = .error e) := by
  intro fp fc fe t dp pr ds
  refine ⟨?_, ?_, ?_, ?_, check_fact_policies_pass, ?_, ?_, ?_, ?_, ?_,
    check_fact_claims_pass, ?_⟩
  · intro ⟨r, hr, hmem⟩
    cases hres : check_fact_policies fp t dp pr ds with
    | error e => exact ⟨e, rfl⟩
    | ok w =>
      exact absurd (check_fact_policies_ok_inv hres).1
        (setDiff_ne_nil_of (List.mem_map_of_mem _ hr) hmem)
  · intro ⟨r, hr, hmem⟩
    cases hres : check_fact_policies fp t dp pr ds with
    | error e => exact ⟨e, rfl⟩
    | ok w =>
      exact absurd (check_fact_policies_ok_inv hres).2.1
        (setDiff_ne_nil_of (List.mem_map_of_mem _ hr) hmem)
  · intro ⟨r, hr, hmem⟩
    cases hres : check_fact_policies fp t dp pr ds with
    | error e => exact ⟨e, rfl⟩
    | ok w =>
      exact absurd (check_fact_policies_ok_inv hres).2.2.1
        (setDiff_ne_nil_of (List.mem_map_of_mem _ hr) hmem)
  · intro ⟨r, hr, hmem⟩
    cases hres : check_fact_policies fp t dp pr ds with
    | error e => exact ⟨e, rfl⟩
    | ok w =>
      exact absurd (check_fact_policies_ok_inv hres).2.2.2
        (setDiff_ne_nil_of (List.mem_map_of_mem _ hr) hmem)
  · intro ⟨r, hr, hmem⟩
    cases hres : check_fact_claims fc dp pr ds t with
    | error e => exact ⟨e, rfl⟩
    | ok w =>
      exact absurd (check_fact_claims_ok_inv hres).1
        (setDiff_ne_nil_of (List.mem_map_of_mem _ hr) hmem)
  · intro ⟨r, hr, hmem⟩
    cases hres : check_fact_claims fc dp pr ds t with
    | error e => exact ⟨e, rfl⟩
    | ok w =>
      exact absurd (check_fact_claims_ok_inv hres).2.1
        (setDiff_ne_nil_of (List.mem_map_of_mem _ hr) hmem)
  · intro ⟨r, hr, hmem⟩
    cases hres : check_fact_claims fc dp pr ds t with
    | error e => exact ⟨e, rfl⟩
    | ok w =>
      exact absurd (check_fact_claims_ok_inv hres).2.2.1
        (setDiff_ne_nil_of (List.mem_map_of_mem _ hr) hmem)
  · intro ⟨r, hr, hmem⟩
    cases hres : check_fact_claims fc dp pr ds t with
    | error e => exact ⟨e, rfl⟩
    | ok w =>
      exact absurd (check_fact_claims_ok_inv hres).2.2.2.1
        (setDiff_ne_nil_of (List.mem_map_of_mem _ hr) hmem)
  · intro ⟨r, hr, hmem⟩
    cases hres : check_fact_claims fc dp pr ds t with
    | error e => exact ⟨e, rfl⟩
    | ok w =>
      exact absurd (check_fact_claims_ok_inv hres).2.2.2.2
        (setDiff_ne_nil_of (List.mem_map_of_mem _ hr) hmem)
  · intro ⟨r, hr, hmem⟩
    cases hres : check_fact_expenses fe t ds with
    | error e => exact ⟨e, rfl⟩
    | ok w =>
      cases w
      exact absurd (check_fact_expenses_ok_inv hres).1
        (setDiff_ne_nil_of (List.mem_map_of_mem _ hr) hmem)

/-- C5 witness: concrete staged tables in which every primary key
resolves, the single expiration date key does not resolve (warning with
count 1, check passes), the single non-null settlement date key does not
resolve (warning with count 1, check passes), and an expense row with an
unresolved date key is fatal. -/
theorem c5_two_tier_fk_policy_witness :
    check_fact_policies
      [FactPolicyRow.mk 1 "AUTO_BASIC" "CA" "W" 20240101 20991231 2024 1
        "ACTIVE" 1 10 120]
      [TimeRow.mk 20240101 (Date.mk 2024 1 1) 2024 1 "January" 1 "2024-01" 1 false]
      [PolicyDimRow.mk 1 "P1" 1 "CA" "W" false]
      [ProductRow.mk "AUTO_BASIC" "Auto" "Basic"]
      [StateRow.mk "CA" "W" "T1"] =
      .ok ["1 expiration_date_key outside dim_time range (allowed)"] ∧
    check_fact_claims
      [FactClaimRow.mk 1 1 (some "AUTO_BASIC") (some "Auto") (some "CA")
        (some "W") "T" "OPEN" false 20240101 20240101 (some 19990101) none 0 0 0]
      [PolicyDimRow.mk 1 "P1" 1 "CA" "W" false]
      [ProductRow.mk "AUTO_BASIC" "Auto" "Basic"]
      [StateRow.mk "CA" "W" "T1"]
      [TimeRow.mk 20240101 (Date.mk 2024 1 1) 2024 1 "January" 1 "2024-01" 1 false] =
      .ok ["1 settlement_date_key outside dim_time (allowed)"] ∧
    (∃ e, check_fact_expenses
      [FactExpenseRow.mk 1 "RENT" "CA" "W" 19990101 25]
      [TimeRow.mk 20240101 (Date.mk 2024 1 1) 2024 1 "January" 1 "2024-01" 1 false]
      [StateRow.mk "CA" "W" "T1"] = .error e) := by
  refine ⟨?_, ?_, ?_⟩
  · have h := (c5_two_tier_fk_policy
      [FactPolicyRow.mk 1 "AUTO_BASIC" "CA" "W" 20240101 20991231 2024 1
        "ACTIVE" 1 10 120] [] []
      [TimeRow.mk 20240101 (Date.mk 2024 1 1) 2024 1 "January" 1 "2024-01" 1 false]
      [PolicyDimRow.mk 1 "P1" 1 "CA" "W" false]
      [ProductRow.mk "AUTO_BASIC" "Auto" "Basic"]
      [StateRow.mk "CA" "W" "T1"]).2.2.2.2.1 (by decide)
    rw [h]
    rfl
  · have h := (c5_two_tier_fk_policy []
      [FactClaimRow.mk 1 1 (some "AUTO_BASIC") (some "Auto") (some "CA")
        (some "W") "T" "OPEN" false 20240101 20240101 (some 19990101) none 0 0 0]
      []
      [TimeRow.mk 20240101 (Date.mk 2024 1 1) 2024 1 "January" 1 "2024-01" 1 false]
      [PolicyDimRow.mk 1 "P1" 1 "CA" "W" false]
      [ProductRow.mk "AUTO_BASIC" "Auto" "Basic"]
      [StateRow.mk "CA" "W" "T1"]).2.2.2.2.2.2.2.2.2.2.1 (by decide)
    rw [h]
    rfl
  · exact (c5_two_tier_fk_policy [] []
      [FactExpenseRow.mk 1 "RENT" "CA" "W" 19990101 25]
      [TimeRow.mk 20240101 (Date.mk 2024 1 1) 2024 1 "January" 1 "2024-01" 1 false]
      [PolicyDimRow.mk 1 "P1" 1 "CA" "W" false]
      [ProductRow.mk "AUTO_BASIC" "Auto" "Basic"]
      [StateRow.mk "CA" "W" "T1"]).2.2.2.2.2.2.2.2.2.2.2 (by decide)

/-! ## C6: negative monetary amounts are fatal -/

/-- C6: a staged `fact_expenses` table with a negative `expense_amount`
row, or a staged `fact_taxes` table with a negative `tax_amount` row,
makes the Pre-Load Validator terminate with a fatal (non-zero) outcome,
and the gated pipeline therefore never invokes the Bulk Loader — the
store is left untouched and the negative row is never silently dropped. -/
theorem c6_negative_amounts_fatal
    (dim_time : List TimeRow) (dim_state : List StateRow)
    (dim_clients : List ClientRow) (dim_products : List ProductRow)
    (dim_policies : List PolicyDimRow) (fact_policies : List FactPolicyRow)
    (fact_claims : List FactClaimRow) (fact_expenses : List FactExpenseRow)
    (fact_taxes : List FactTaxRow)
    (hneg : (∃ r ∈ fact_expenses, r.expense_amount < 0) ∨
      (∃ r ∈ fact_taxes, r.tax_amount < 0)) :
    (∃ e, run_all_checks dim_time dim_state dim_clients dim_products
      dim_policies fact_policies fact_claims fact_expenses fact_taxes =
      .error e) ∧
    (∀ (load : Store → Store) (store : Store),
      gatedLoad (run_all_checks dim_time dim_state dim_clients dim_products
        dim_policies fact_policies fact_claims fact_expenses fact_taxes)
        load store = store) := by
  obtain ⟨e, he⟩ := run_all_checks_fatal_of_neg dim_time dim_state dim_clients
    dim_products dim_policies fact_policies fact_claims fact_expenses
    fact_taxes hneg
  refine ⟨⟨e, he⟩, fun load store => ?_⟩
  unfold gatedLoad
  rw [he]

/-- C6 witness: a concrete staged table set whose expense table holds an
`expense_amount = -10` row is rejected by the validator. -/
theorem c6_negative_amounts_fatal_witness :
    (∃ r ∈ [FactExpenseRow.mk 1 "RENT" "CA" "W" 20240101 (-10)],
      r.expense_amount < 0) ∧
    (∃ e, run_all_checks
      [TimeRow.mk 20240101 (Date.mk 2024 1 1) 2024 1 "January" 1 "2024-01" 1 false]
      [StateRow.mk "CA" "W" "T1"]
      [ClientRow.mk 1 2020 30 "F" "RETAIL" "CA" "W" "T1" 3]
      [ProductRow.mk "AUTO_BASIC" "Auto" "Basic"]
      [PolicyDimRow.mk 1 "P1" 1 "CA" "W" false]
      [FactPolicyRow.mk 1 "AUTO_BASIC" "CA" "W" 20240101 20240101 2024 1
        "ACTIVE" 1 10 120]
      [FactClaimRow.mk 1 1 (some "AUTO_BASIC") (some "Auto") (some "CA")
        (some "W") "T" "OPEN" false 20240101 20240101 none none 0 0 0]
      [FactExpenseRow.mk 1 "RENT" "CA" "W" 20240101 (-10)]
      [FactTaxRow.mk 1 1 "PREMIUM_TAX" "CA" none none 2 50] = .error e) :=
  ⟨by decide,
    (c6_negative_amounts_fatal
      [TimeRow.mk 20240101 (Date.mk 2024 1 1) 2024 1 "January" 1 "2024-01" 1 false]
      [StateRow.mk "CA" "W" "T1"]
      [ClientRow.mk 1 2020 30 "F" "RETAIL" "CA" "W" "T1" 3]
      [ProductRow.mk "AUTO_BASIC" "Auto" "Basic"]
      [PolicyDimRow.mk 1 "P1" 1 "CA" "W" false]
      [FactPolicyRow.mk 1 "AUTO_BASIC" "CA" "W" 20240101 20240101 2024 1
        "ACTIVE" 1 10 120]
      [FactClaimRow.mk 1 1 (some "AUTO_BASIC") (some "Auto") (some "CA")
        (some "W") "T" "OPEN" false 20240101 20240101 none none 0 0 0]
      [FactExpenseRow.mk 1 "RENT" "CA" "W" 20240101 (-10)]
      [FactTaxRow.mk 1 1 "PREMIUM_TAX" "CA" none none 2 50]
      (Or.inl (by decide))).1⟩

/-! ## Left-join lemmas for the claims fact builder -/

theorem filter_policy_id_length_le_one {policies : List PolicyRow}
    (hnd : (policies.map (fun p => p.policy_id)).Nodup) (x : Nat) :
    (policies.filter (fun p => p.policy_id == x)).length ≤ 1 := by
  induction policies with
  | nil => simp
  | cons p ps ih =>
    rw [List.map_cons, List.nodup_cons] at hnd
    rw [List.filter_cons]
    split_ifs with hp
    · have hempty : ps.filter (fun q => q.policy_id == x) = [] := by
        rw [List.filter_eq_nil_iff]
        intro q hq hqx
        refine hnd.1 ?_
        rw [List.mem_map]
        refine ⟨q, hq, ?_⟩
        have h1 : p.policy_id = x := by simpa using hp
        have h2 : q.policy_id = x := by simpa using hqx
        rw [h2, h1]
      rw [hempty]
      simp
    · exact ih hnd.2

theorem leftJoin_block_eq {ps : List PolicyRow} {c : ClaimRow}
    (hnd : (ps.map (fun p => p.policy_id)).Nodup) :
    ∃ j : Option PolicyJoinCols,
      (match ps.filter (fun p => p.policy_id == c.policy_id) with
        | [] => [(c, (none : Option PolicyJoinCols))]
        | ms => ms.map (fun p => (c, some (policyJoinCols p)))) = [(c, j)] ∧
      (j = none ∨ ∃ p ∈ ps, p.policy_id = c.policy_id ∧
        j = some (policyJoinCols p)) := by
  have hlen := filter_policy_id_length_le_one hnd c.policy_id
  cases hfil : ps.filter (fun p => p.policy_id == c.policy_id) with
  | nil => exact ⟨none, rfl, Or.inl rfl⟩
  | cons p rest =>
    rw [hfil] at hlen
    cases rest with
    | cons q more => simp at hlen
    | nil =>
      refine ⟨some (policyJoinCols p), rfl, Or.inr ⟨p, ?_, ?_, rfl⟩⟩
      · have := List.mem_filter.mp (hfil ▸ List.mem_cons_self p [])
        exact this.1
      · have := List.mem_filter.mp (hfil ▸ List.mem_cons_self p [])
        simpa using this.2

/-! ## C9: claim rows are preserved by the left join -/

/-- C9 counterexample: a claim whose incident date does not parse makes
`build_fact_claims` raise (modelled as `none`) even though `policy_id`
is vacuously unique in the empty policy table — no row list at all is
returned, contradicting one-output-row-per-claim as stated. -/
theorem c9_unparseable_date_no_rows :
    build_fact_claims
      [ClaimRow.mk 1 7 "T" "OPEN" none none (some (Date.mk 2024 1 2)) 0 0 0]
      [] = none ∧
    (([] : List PolicyRow).map (fun p => p.policy_id)).Nodup :=
  ⟨rfl, List.nodup_nil⟩

/-- C9 (amended): for claims and policies inputs in which `policy_id` is
unique within the policies table and every claim's incident and report
dates parse, `build_fact_claims` returns exactly one output row per
input claim, preserving every `claim_id` in order, and a claim whose
`policy_id` matches no policy keeps its row with null enrichment fields
(`state_code`, `region_code`, and hence `product_key`). -/
theorem c9_claim_rows_preserved :
    ∀ (claims : List ClaimRow) (policies : List PolicyRow),
    (policies.map (fun p => p.policy_id)).Nodup →
    (∀ c ∈ claims, c.incident_date.isSome ∧ c.report_date.isSome) →
    ∃ l, build_fact_claims claims policies = some l ∧
      l.length = claims.length ∧
      l.map (fun r => r.claim_id) = claims.map (fun c => c.claim_id) ∧
      (∀ r ∈ l, (∀ p ∈ policies, p.policy_id ≠ r.policy_id) →
        r.state_code = none ∧ r.region_code = none ∧ r.product_key = none) := by
  intro claims policies hnd hdates
  induction claims with
  | nil => exact ⟨[], rfl, rfl, rfl, fun r hr => absurd hr (List.not_mem_nil r)⟩
  | cons c cs ih =>
    obtain ⟨hinc, hrep⟩ := hdates c (List.mem_cons_self _ _)
    obtain ⟨inc, hinc2⟩ := Option.isSome_iff_exists.mp hinc
    obtain ⟨rep, hrep2⟩ := Option.isSome_iff_exists.mp hrep
    obtain ⟨j, hblock, hj⟩ := leftJoin_block_eq (c := c) hnd
    obtain ⟨l, hl, hlen, hids, hnull⟩ :=
      ih (fun c2 hc2 => hdates c2 (List.mem_cons_of_mem _ hc2))
    have hjoin : leftJoinClaims (c :: cs) policies =
        (c, j) :: leftJoinClaims cs policies := by
      unfold leftJoinClaims
      rw [List.flatMap_cons, hblock]
      rfl
    refine ⟨factClaimRow c j inc rep :: l, ?_, ?_, ?_, ?_⟩
    · unfold build_fact_claims
      rw [hjoin, List.mapM_cons]
      unfold build_fact_claims at hl
      rw [hl, hinc2, hrep2]
      rfl
    · simp [hlen]
    · simp only [List.map_cons, hids]
      rfl
    · intro r hr hnomatch
      rcases List.mem_cons.mp hr with rfl | hr2
      · rcases hj with rfl | ⟨p, hp, hpid, rfl⟩
        · exact ⟨rfl, rfl, rfl⟩
        · exact absurd hpid (hnomatch p hp)
      · exact hnull r hr2 hnomatch

/-- C9 witness: one claim with a policy reference absent from the policy
table is preserved with null enrichment. -/
theorem c9_claim_rows_preserved_witness :
    (([PolicyRow.mk 5 "P5" 1 "CA" "W" false "Auto" "Basic"
        (some (Date.mk 2024 1 1)) (some (Date.mk 2024 12 31)) "ACTIVE" 1 10
        120].map (fun p => p.policy_id)).Nodup) ∧
    (∃ l, build_fact_claims
      [ClaimRow.mk 1 7 "T" "OPEN" none (some (Date.mk 2024 1 2))
        (some (Date.mk 2024 1 3)) 0 0 0]
      [PolicyRow.mk 5 "P5" 1 "CA" "W" false "Auto" "Basic"
        (some (Date.mk 2024 1 1)) (some (Date.mk 2024 12 31)) "ACTIVE" 1 10
        120] = some l ∧
      l.length = 1 ∧
      l.map (fun r => r.claim_id) = [1] ∧
      (∀ r ∈ l, (∀ p ∈ [PolicyRow.mk 5 "P5" 1 "CA" "W" false "Auto" "Basic"
          (some (Date.mk 2024 1 1)) (some (Date.mk 2024 12 31)) "ACTIVE" 1 10
          120], p.policy_id ≠ r.policy_id) →
        r.state_code = none ∧ r.region_code = none ∧ r.product_key = none)) :=
  ⟨by decide,
    c9_claim_rows_preserved
      [ClaimRow.mk 1 7 "T" "OPEN" none (some (Date.mk 2024 1 2))
        (some (Date.mk 2024 1 3)) 0 0 0]
      [PolicyRow.mk 5 "P5" 1 "CA" "W" false "Auto" "Basic"
        (some (Date.mk 2024 1 1)) (some (Date.mk 2024 12 31)) "ACTIVE" 1 10
        120] (by decide) (by decide)⟩

/-! ## C8: no valid dates at all -/

/-- C8: when no date in the policy effective/expiration and claim
incident/report columns parses, `build_dim_time` fails (the minimum is
`NaT` and `pd.date_range` raises — the spec's `EmptyDateRangeError`). -/
theorem c8_no_valid_dates_fails (policies : List PolicyRow)
    (claims : List ClaimRow)
    (hp : ∀ p ∈ policies, p.effective_date = none ∧ p.expiration_date = none)
    (hc : ∀ c ∈ claims, c.incident_date = none ∧ c.report_date = none) :
    build_dim_time policies claims = none := by
  have h1 : seriesMin (policies.map (fun p => p.effective_date)) = none :=
    foldl_seriesStep_all_none (fun x hx => by
      obtain ⟨p, hpmem, rfl⟩ := List.mem_map.mp hx
      exact (hp p hpmem).1)
  have hmin : pyMin ((dateSeries policies claims).map seriesMin) = none := by
    show List.foldl (pyStep (fun b a => dlt b a))
      (seriesMin (policies.map (fun p => p.effective_date)))
      [seriesMin (policies.map (fun p => p.expiration_date)),
       seriesMin (claims.map (fun c => c.incident_date)),
       seriesMin (claims.map (fun c => c.report_date))] = none
    rw [h1]
    exact foldl_pyStep_none
  unfold build_dim_time
  rw [hmin]

/-- C8 witness: one policy and one claim, none of whose dates parse. -/
theorem c8_no_valid_dates_fails_witness :
    (∀ p ∈ [PolicyRow.mk 1 "P1" 1 "CA" "W" false "Auto" "Basic" none none
        "ACTIVE" 1 10 120],
      p.effective_date = none ∧ p.expiration_date = none) ∧
    build_dim_time
      [PolicyRow.mk 1 "P1" 1 "CA" "W" false "Auto" "Basic" none none
        "ACTIVE" 1 10 120]
      [ClaimRow.mk 1 1 "T" "OPEN" none none none 0 0 0] = none :=
  ⟨by decide,
    c8_no_valid_dates_fails _ _ (by decide) (by decide)⟩

/-! ## C3: the generated time dimension -/

/-- C3 counterexample: the claim quantifies over inputs with at least one
parseable date anywhere, but when the `effective_date` column is entirely
unparseable, Python's builtin `min` keeps the `NaT` minimum of that first
series (every comparison against `NaT` is false), so `build_dim_time`
raises instead of emitting rows — even though the expiration, incident
and report columns all hold parseable dates. -/
theorem c3_effective_nat_fails :
    build_dim_time
      [PolicyRow.mk 1 "P1" 1 "CA" "W" false "Auto" "Basic" none
        (some (Date.mk 2024 1 5)) "ACTIVE" 1 10 120]
      [ClaimRow.mk 1 1 "T" "OPEN" none (some (Date.mk 2024 1 2))
        (some (Date.mk 2024 1 3)) 0 0 0] = none ∧
    Date.mk 2024 1 2 ∈ observedDates
      [PolicyRow.mk 1 "P1" 1 "CA" "W" false "Auto" "Basic" none
        (some (Date.mk 2024 1 5)) "ACTIVE" 1 10 120]
      [ClaimRow.mk 1 1 "T" "OPEN" none (some (Date.mk 2024 1 2))
        (some (Date.mk 2024 1 3)) 0 0 0] := by decide

/-- C3 (amended): for every input whose parseable dates are real calendar
dates and whose `effective_date` column has at least one parseable date,
`build_dim_time` emits exactly the days of `pd.date_range(lo, hi)` where
`lo`/`hi` are the minimum/maximum observed dates: a valid day is in the
range iff it lies between `lo` and `hi` inclusive, the emitted
`date_key`s are pairwise distinct, consecutive rows are consecutive
calendar days (no gaps), and rebuilding from equal inputs yields the
identical sequence. -/
theorem c3_time_dimension_contiguous (policies : List PolicyRow)
    (claims : List ClaimRow)
    (Hv : ∀ d ∈ observedDates policies claims, d.valid)
    (Heff : ∃ p ∈ policies, p.effective_date.isSome) :
    ∃ lo hi rows,
      build_dim_time policies claims = some rows ∧
      rows = (date_range lo hi).map mkTimeRow ∧
      lo ∈ observedDates policies claims ∧
      hi ∈ observedDates policies claims ∧
      (∀ d ∈ observedDates policies claims,
        dle lo d = true ∧ dle d hi = true) ∧
      (∀ e : Date, e.valid →
        (e ∈ date_range lo hi ↔ dle lo e = true ∧ dle e hi = true)) ∧
      (rows.map (fun r => r.date_key)).Nodup ∧
      List.Chain' (fun a b => b = nextDay a) (date_range lo hi) ∧
      (∀ policies2 claims2, policies2 = policies → claims2 = claims →
        build_dim_time policies2 claims2 = build_dim_time policies claims) := by
  obtain ⟨lo, hi, hlov, hhiv, hlom, hhim, hbounds, heq⟩ :=
    build_dim_time_spec policies claims Hv Heff
  refine ⟨lo, hi, (date_range lo hi).map mkTimeRow, heq, rfl, hlom, hhim,
    hbounds, ?_, ?_, chain_date_range, ?_⟩
  · exact fun e he => mem_date_range_iff hlov hhiv he
  · have hmm : ((date_range lo hi).map mkTimeRow).map (fun r => r.date_key) =
        (date_range lo hi).map dateKey := by
      rw [List.map_map]
      rfl
    rw [hmm]
    exact nodup_dateKeys_date_range hlov
  · intro p2 c2 h1 h2
    rw [h1, h2]

/-- C3 witness: a two-policy, one-claim input spanning 2024-01-01 to
2024-01-03. -/
theorem c3_time_dimension_contiguous_witness :
    (∀ d ∈ observedDates
      [PolicyRow.mk 1 "P1" 1 "CA" "W" false "Auto" "Basic"
        (some (Date.mk 2024 1 1)) (some (Date.mk 2024 1 3)) "ACTIVE" 1 10 120]
      [ClaimRow.mk 1 1 "T" "OPEN" none (some (Date.mk 2024 1 2))
        (some (Date.mk 2024 1 2)) 0 0 0], d.valid) ∧
    (∃ lo hi rows,
      build_dim_time
        [PolicyRow.mk 1 "P1" 1 "CA" "W" false "Auto" "Basic"
          (some (Date.mk 2024 1 1)) (some (Date.mk 2024 1 3)) "ACTIVE" 1 10 120]
        [ClaimRow.mk 1 1 "T" "OPEN" none (some (Date.mk 2024 1 2))
          (some (Date.mk 2024 1 2)) 0 0 0] = some rows ∧
      rows = (date_range lo hi).map mkTimeRow ∧
      (rows.map (fun r => r.date_key)).Nodup) := by
  refine ⟨by decide, ?_⟩
  obtain ⟨lo, hi, rows, h1, h2, _, _, _, _, h7, _, _⟩ :=
    c3_time_dimension_contiguous
      [PolicyRow.mk 1 "P1" 1 "CA" "W" false "Auto" "Basic"
        (some (Date.mk 2024 1 1)) (some (Date.mk 2024 1 3)) "ACTIVE" 1 10 120]
      [ClaimRow.mk 1 1 "T" "OPEN" none (some (Date.mk 2024 1 2))
        (some (Date.mk 2024 1 2)) 0 0 0] (by decide) (by decide)
  exact ⟨lo, hi, rows, h1, h2, h7⟩

/-! ## C10: date-key referential closure by construction -/

theorem mapM_option_spec {α β : Type} {f : α → Option β} {l : List α}
    (hall : ∀ a ∈ l, (f a).isSome) :
    ∃ bl, l.mapM f = some bl ∧ ∀ b ∈ bl, ∃ a ∈ l, f a = some b := by
  induction l with
  | nil => exact ⟨[], rfl, fun b hb => absurd hb (List.not_mem_nil b)⟩
  | cons x xs ih =>
    obtain ⟨y, hy⟩ := Option.isSome_iff_exists.mp
      (hall x (List.mem_cons_self _ _))
    obtain ⟨bl, hbl, hprov⟩ := ih (fun a ha => hall a (List.mem_cons_of_mem _ ha))
    refine ⟨y :: bl, ?_, ?_⟩
    · rw [List.mapM_cons, hy, hbl]
      rfl
    · intro b hb
      rcases List.mem_cons.mp hb with rfl | hb2
      · exact ⟨x, List.mem_cons_self _ _, hy⟩
      · obtain ⟨a, ha, hfa⟩ := hprov b hb2
        exact ⟨a, List.mem_cons_of_mem _ ha, hfa⟩

theorem leftJoin_fst_mem {claims : List ClaimRow} {ps : List PolicyRow}
    {cj : ClaimRow × Option PolicyJoinCols}
    (h : cj ∈ leftJoinClaims claims ps) : cj.1 ∈ claims := by
  unfold leftJoinClaims at h
  obtain ⟨c, hc, hmem⟩ := List.mem_flatMap.mp h
  cases hfil : ps.filter (fun p => p.policy_id == c.policy_id) with
  | nil =>
    rw [hfil] at hmem
    rcases List.mem_cons.mp hmem with rfl | hmem2
    · exact hc
    · exact absurd hmem2 (List.not_mem_nil cj)
  | cons p rest =>
    rw [hfil] at hmem
    obtain ⟨q, hq, rfl⟩ := List.mem_map.mp hmem
    exact hc

/-- C10: on pipeline-shaped inputs (non-empty policy table, every date
column parseable, all parsed dates real calendar days), every
`effective_date_key` and `expiration_date_key` of `build_fact_policies`
and every `incident_date_key` and `report_date_key` of
`build_fact_claims` occurs among the `date_key`s of
`build_dim_time policies claims` — including the expiration keys the
validator treats as advisory. -/
theorem c10_date_key_closure (policies : List PolicyRow)
    (claims : List ClaimRow)
    (Hv : ∀ d ∈ observedDates policies claims, d.valid)
    (Hp : ∀ p ∈ policies, p.effective_date.isSome ∧ p.expiration_date.isSome)
    (Hc : ∀ c ∈ claims, c.incident_date.isSome ∧ c.report_date.isSome)
    (Hne : policies ≠ []) :
    ∃ rows fpl fcl,
      build_dim_time policies claims = some rows ∧
      build_fact_policies policies = some fpl ∧
      build_fact_claims claims policies = some fcl ∧
      (∀ r ∈ fpl, r.effective_date_key ∈ rows.map (fun q => q.date_key) ∧
        r.expiration_date_key ∈ rows.map (fun q => q.date_key)) ∧
      (∀ r ∈ fcl, r.incident_date_key ∈ rows.map (fun q => q.date_key) ∧
        r.report_date_key ∈ rows.map (fun q => q.date_key)) := by
  have Heff : ∃ p ∈ policies, p.effective_date.isSome := by
    cases policies with
    | nil => exact absurd rfl Hne
    | cons p ps => exact ⟨p, List.mem_cons_self _ _,
        (Hp p (List.mem_cons_self _ _)).1⟩
  obtain ⟨lo, hi, hlov, hhiv, _, _, hbounds, heqtime⟩ :=
    build_dim_time_spec policies claims Hv Heff
  have hkeymem : ∀ d ∈ observedDates policies claims,
      dateKey d ∈ ((date_range lo hi).map mkTimeRow).map
        (fun q => q.date_key) := by
    intro d hd
    have hmm : ((date_range lo hi).map mkTimeRow).map (fun q => q.date_key) =
        (date_range lo hi).map dateKey := by
      rw [List.map_map]
      rfl
    rw [hmm]
    exact List.mem_map_of_mem dateKey
      ((mem_date_range_iff hlov hhiv (Hv d hd)).mpr (hbounds d hd))
  obtain ⟨fpl, hfpl, hfplprov⟩ := @mapM_option_spec PolicyRow FactPolicyRow
    (fun p => match p.effective_date, p.expiration_date with
      | some eff, some exp => some (factPolicyRow p eff exp)
      | _, _ => none) policies
    (by
      intro p hp
      obtain ⟨heff, hexp⟩ := Hp p hp
      obtain ⟨eff, he⟩ := Option.isSome_iff_exists.mp heff
      obtain ⟨exp, hx⟩ := Option.isSome_iff_exists.mp hexp
      simp [he, hx])
  obtain ⟨fcl, hfcl, hfclprov⟩ := @mapM_option_spec
    (ClaimRow × Option PolicyJoinCols) FactClaimRow
    (fun cj => match cj.1.incident_date, cj.1.report_date with
      | some inc, some rep => some (factClaimRow cj.1 cj.2 inc rep)
      | _, _ => none) (leftJoinClaims claims policies)
    (by
      intro cj hcj
      obtain ⟨hinc, hrep⟩ := Hc cj.1 (leftJoin_fst_mem hcj)
      obtain ⟨inc, hi2⟩ := Option.isSome_iff_exists.mp hinc
      obtain ⟨rep, hr2⟩ := Option.isSome_iff_exists.mp hrep
      simp [hi2, hr2])
  refine ⟨(date_range lo hi).map mkTimeRow, fpl, fcl, heqtime, hfpl, hfcl,
    ?_, ?_⟩
  · intro r hr
    obtain ⟨p, hp, hfa⟩ := hfplprov r hr
    obtain ⟨eff, he⟩ := Option.isSome_iff_exists.mp (Hp p hp).1
    obtain ⟨exp, hx⟩ := Option.isSome_iff_exists.mp (Hp p hp).2
    rw [he, hx] at hfa
    have hfa2 : factPolicyRow p eff exp = r := by
      cases hfa
      rfl
    rw [← hfa2]
    constructor
    · exact hkeymem eff (mem_observedDates (by simp [dateSeries])
        (List.mem_map.mpr ⟨p, hp, he⟩))
    · exact hkeymem exp (mem_observedDates (by simp [dateSeries])
        (List.mem_map.mpr ⟨p, hp, hx⟩))
  · intro r hr
    obtain ⟨cj, hcj, hfa⟩ := hfclprov r hr
    have hcmem := leftJoin_fst_mem hcj
    obtain ⟨inc, hi2⟩ := Option.isSome_iff_exists.mp (Hc cj.1 hcmem).1
    obtain ⟨rep, hr2⟩ := Option.isSome_iff_exists.mp (Hc cj.1 hcmem).2
    rw [hi2, hr2] at hfa
    have hfa2 : factClaimRow cj.1 cj.2 inc rep = r := by
      cases hfa
      rfl
    rw [← hfa2]
    constructor
    · exact hkeymem inc (mem_observedDates (by simp [dateSeries])
        (List.mem_map.mpr ⟨cj.1, hcmem, hi2⟩))
    · exact hkeymem rep (mem_observedDates (by simp [dateSeries])
        (List.mem_map.mpr ⟨cj.1, hcmem, hr2⟩))

/-- C10 witness: a one-policy, one-claim input whose derived keys all
resolve in the built time dimension. -/
theorem c10_date_key_closure_witness :
    ([PolicyRow.mk 1 "P1" 1 "CA" "W" false "Auto" "Basic"
        (some (Date.mk 2024 1 1)) (some (Date.mk 2024 1 4)) "ACTIVE" 1 10 120]
      ≠ []) ∧
    (∃ rows fpl fcl,
      build_dim_time
        [PolicyRow.mk 1 "P1" 1 "CA" "W" false "Auto" "Basic"
          (some (Date.mk 2024 1 1)) (some (Date.mk 2024 1 4)) "ACTIVE" 1 10 120]
        [ClaimRow.mk 1 1 "T" "OPEN" none (some (Date.mk 2024 1 2))
          (some (Date.mk 2024 1 3)) 0 0 0] = some rows ∧
      build_fact_policies
        [PolicyRow.mk 1 "P1" 1 "CA" "W" false "Auto" "Basic"
          (some (Date.mk 2024 1 1)) (some (Date.mk 2024 1 4)) "ACTIVE" 1 10 120]
        = some fpl ∧
      build_fact_claims
        [ClaimRow.mk 1 1 "T" "OPEN" none (some (Date.mk 2024 1 2))
          (some (Date.mk 2024 1 3)) 0 0 0]
        [PolicyRow.mk 1 "P1" 1 "CA" "W" false "Auto" "Basic"
          (some (Date.mk 2024 1 1)) (some (Date.mk 2024 1 4)) "ACTIVE" 1 10 120]
        = some fcl ∧
      (∀ r ∈ fpl, r.effective_date_key ∈ rows.map (fun q => q.date_key) ∧
        r.expiration_date_key ∈ rows.map (fun q => q.date_key)) ∧
      (∀ r ∈ fcl, r.incident_date_key ∈ rows.map (fun q => q.date_key) ∧
        r.report_date_key ∈ rows.map (fun q => q.date_key))) :=
  ⟨by decide,
    c10_date_key_closure
      [PolicyRow.mk 1 "P1" 1 "CA" "W" false "Auto" "Basic"
        (some (Date.mk 2024 1 1)) (some (Date.mk 2024 1 4)) "ACTIVE" 1 10 120]
      [ClaimRow.mk 1 1 "T" "OPEN" none (some (Date.mk 2024 1 2))
        (some (Date.mk 2024 1 3)) 0 0 0]
      (by decide) (by decide) (by decide) (by decide)⟩
